import Mathlib

/-!
Verification of the msdoc repository (a Go reader for legacy Microsoft Word
binary documents) against its natural-language specification.

Byte sequences are modelled as `List Nat`; well-formed inputs hold entries
below 256.  Go's little-endian integer reads, slices and bounds checks are
translated directly.  Fallible Go functions returning `(value, error)` become
`Except String`.
-/

instance {ε α : Type} [DecidableEq ε] [DecidableEq α] : DecidableEq (Except ε α) := fun
  | .ok a, .ok b =>
    if h : a = b then .isTrue (by rw [h]) else .isFalse (fun hh => h (Except.ok.inj hh))
  | .error a, .error b =>
    if h : a = b then .isTrue (by rw [h]) else .isFalse (fun hh => h (Except.error.inj hh))
  | .ok _, .error _ => .isFalse (fun hh => Except.noConfusion hh)
  | .error _, .ok _ => .isFalse (fun hh => Except.noConfusion hh)

/-- Little-endian 16-bit read at `off` (Go `binary.LittleEndian.Uint16`). -/
def leU16 (data : List Nat) (off : Nat) : Nat :=
  data.getD off 0 + 256 * data.getD (off + 1) 0

/-- Little-endian 32-bit read at `off` (Go `binary.LittleEndian.Uint32`). -/
def leU32 (data : List Nat) (off : Nat) : Nat :=
  data.getD off 0 + 256 * data.getD (off + 1) 0 + 65536 * data.getD (off + 2) 0 +
    16777216 * data.getD (off + 3) 0

/-- Little-endian 64-bit read at `off` (Go `binary.LittleEndian.Uint64`). -/
def leU64 (data : List Nat) (off : Nat) : Nat :=
  leU32 data off + 4294967296 * leU32 data (off + 4)

/-- Go slice `data[a:b]` (for `a ≤ b`, bounds already checked by callers). -/
def goSlice (data : List Nat) (a b : Nat) : List Nat :=
  (data.drop a).take (b - a)

/-- Reinterpret a `uint32` value as Go `int32` (two's complement). -/
def toInt32 (n : Nat) : Int :=
  if n % 4294967296 < 2147483648 then ((n % 4294967296 : Nat) : Int)
  else ((n % 4294967296 : Nat) : Int) - 4294967296

/-! ## Package `structures`: PCD, PLC, PlcPcd (src/structures/pcd.go, plc.go) -/

/-- PCD (Piece Descriptor), from `structures.PCD`. -/
structure PCD where
  fNoEncryption : Bool
  fComplex : Bool
  fc : Nat
  isUnicode : Bool
deriving DecidableEq

/-- Go `structures.ParsePCD`: parse a PCD from an 8-byte data element. -/
def ParsePCD (data : List Nat) : Except String PCD :=
  if data.length ≠ 8 then .error "pcd: invalid data size, expected 8" else
  let flags := leU16 data 0
  let fc := leU32 data 2
  .ok { fNoEncryption := (flags &&& 0x0001) != 0
        fComplex := (flags &&& 0x0002) != 0
        isUnicode := (fc &&& 0x40000000) != 0
        fc := fc &&& 0x3FFFFFFF }

/-- Go `structures.PCD.GetActualFC`: file position for reading text. -/
def GetActualFC (pcd : PCD) : Nat :=
  if pcd.isUnicode then pcd.fc / 2 else pcd.fc

/-- PLC (Plex), from `structures.PLC`. -/
structure PLC where
  cps : List Nat
  data : List (List Nat)
  dataSize : Nat
deriving DecidableEq

/-- The CP-reading loop inside `structures.ParsePLC`: read `k` u32 CPs
starting at CP index `i` (with the per-CP bounds check of the source). -/
def readPlcCPs (data : List Nat) : Nat → Nat → Except String (List Nat)
  | 0, _ => .ok []
  | k + 1, i =>
    if i * 4 + 4 > data.length then .error "plc: not enough data for CP" else
    match readPlcCPs data k (i + 1) with
    | .error e => .error e
    | .ok rest => .ok (leU32 data (i * 4) :: rest)

/-- The data-element loop inside `structures.ParsePLC`: read `k` elements of
`dataSize` bytes each, element index `i`, elements starting at `dataOffset`. -/
def readPlcData (data : List Nat) (dataOffset dataSize : Nat) :
    Nat → Nat → Except String (List (List Nat))
  | 0, _ => .ok []
  | k + 1, i =>
    if dataOffset + i * dataSize + dataSize > data.length then
      .error "plc: not enough data for element" else
    match readPlcData data dataOffset dataSize k (i + 1) with
    | .error e => .error e
    | .ok rest =>
      .ok (goSlice data (dataOffset + i * dataSize)
            (dataOffset + i * dataSize + dataSize) :: rest)

/-- Go `structures.ParsePLC`: parse a PLC with elements of `dataSize` bytes.
The Go parameter is an `int`; the source rejects `dataSize <= 0`, so a `Nat`
with a zero test is an exact translation of the reachable cases. -/
def ParsePLC (data : List Nat) (dataSize : Nat) : Except String PLC :=
  if data.length < 4 then .error "plc: data too short, need at least 4 bytes" else
  if dataSize = 0 then .error "plc: invalid data size" else
  if (data.length - 4) % (dataSize + 4) ≠ 0 then .error "plc: invalid PLC size" else
  let numDataElements := (data.length - 4) / (dataSize + 4)
  let numCPs := numDataElements + 1
  match readPlcCPs data numCPs 0 with
  | .error e => .error e
  | .ok cps =>
    match readPlcData data (numCPs * 4) dataSize numDataElements 0 with
    | .error e => .error e
    | .ok elems => .ok { cps := cps, data := elems, dataSize := dataSize }

/-- PlcPcd (the piece table), from `structures.PlcPcd`. -/
structure PlcPcd where
  plc : PLC
  pieces : List PCD
deriving DecidableEq

/-- The PCD-parsing loop inside `structures.ParsePlcPcd`. -/
def parseAllPCDs : List (List Nat) → Except String (List PCD)
  | [] => .ok []
  | d :: rest =>
    match ParsePCD d with
    | .error e => .error e
    | .ok p =>
      match parseAllPCDs rest with
      | .error e => .error e
      | .ok ps => .ok (p :: ps)

/-- Go `structures.ParsePlcPcd`: parse a piece table from raw data. -/
def ParsePlcPcd (data : List Nat) : Except String PlcPcd :=
  match ParsePLC data 8 with
  | .error e => .error e
  | .ok plc =>
    match parseAllPCDs plc.data with
    | .error e => .error e
    | .ok pieces => .ok { plc := plc, pieces := pieces }

/-- Go `structures.CP.Distance`: characters between two CPs (0 if start ≥ end). -/
def cpDistance (start «end» : Nat) : Nat :=
  if start ≥ «end» then 0 else «end» - start

/-! ## Package `fib` (fib/fib.go with the nFib version dispatch, fib/structures.go)

The FIB parser reads from a `bytes.Reader`.  `binary.Read` uses `io.ReadFull`,
which fails whenever fewer bytes remain than requested; a plain `r.Read(buf)`
with a non-empty buffer fails only when the reader is already exhausted and
otherwise consumes `min(len(buf), remaining)` bytes without error. -/

/-- Go `fib.FibBase` (32 bytes; the blank fields are reserved padding). -/
structure FibBase where
  wIdent : Nat
  nFib : Nat
  lid : Nat
  pnNext : Nat
  flags1 : Nat
  nFibBack : Nat
  lKey : Nat
  envr : Nat
  flags2 : Nat
deriving DecidableEq

/-- Field extraction of `binary.Read(&fib.Base)` from the first 32 bytes. -/
def parseFibBase (data : List Nat) : FibBase :=
  { wIdent := leU16 data 0
    nFib := leU16 data 2
    lid := leU16 data 6
    pnNext := leU16 data 8
    flags1 := leU16 data 10
    nFibBack := leU16 data 12
    lKey := leU32 data 14
    envr := data.getD 18 0
    flags2 := data.getD 19 0 }

/-- Go `fib.FibRgFcLcb97`, restricted to the fields the parser assigns
(`FcStshfOrig` pair, `FcStshf` pair, `FcPlcfsed` pair, `FcPlcfhdd` pair,
`FcClx` pair); all other fields of the Go struct are never written and stay
zero. -/
structure FibRgFcLcb97 where
  fcStshfOrig : Nat := 0
  lcbStshfOrig : Nat := 0
  fcStshf : Nat := 0
  lcbStshf : Nat := 0
  fcPlcfsed : Nat := 0
  lcbPlcfsed : Nat := 0
  fcPlcfhdd : Nat := 0
  lcbPlcfhdd : Nat := 0
  fcClx : Nat := 0
  lcbClx : Nat := 0
deriving DecidableEq

/-- Go `fib.FileInformationBlock` (the fields the parser fills). -/
structure FileInformationBlock where
  base : FibBase
  csw : Nat
  cslw : Nat
  cbRgFcLcb : Nat
  rgFcLcbBlob : List Nat
  rgFcLcb : FibRgFcLcb97
deriving DecidableEq

/-- Go `fib.parseFibRgFcLcb97`: read the blob as sequential u32 fields and map
the important ones by index (FcClx/LcbClx at field indices 66/67, byte offset
264). -/
def parseFibRgFcLcb97 (blob : List Nat) : Except String FibRgFcLcb97 :=
  if blob.length < 8 then .error "not enough data for FibRgFcLcb97" else
  let numFields := blob.length / 4
  let fields := (List.range numFields).map (fun i => leU32 blob (i * 4))
  .ok { fcStshfOrig := if 2 ≤ numFields then fields.getD 0 0 else 0
        lcbStshfOrig := if 2 ≤ numFields then fields.getD 1 0 else 0
        fcStshf := if 4 ≤ numFields then fields.getD 2 0 else 0
        lcbStshf := if 4 ≤ numFields then fields.getD 3 0 else 0
        fcClx := if 68 ≤ numFields then fields.getD 66 0 else 0
        lcbClx := if 68 ≤ numFields then fields.getD 67 0 else 0
        fcPlcfsed := if 20 ≤ numFields then fields.getD 12 0 else 0
        lcbPlcfsed := if 20 ≤ numFields then fields.getD 13 0 else 0
        fcPlcfhdd := if 24 ≤ numFields then fields.getD 16 0 else 0
        lcbPlcfhdd := if 24 ≤ numFields then fields.getD 17 0 else 0 }

/-- Go `fib.parseBasicFcLcb`: fallback for unknown nFib versions (reads the pair
at blob offset 264 when the blob is long enough, else leaves zero). -/
def parseBasicFcLcb (blob : List Nat) : Except String FibRgFcLcb97 :=
  if 264 + 8 ≤ blob.length then
    .ok { fcClx := leU32 blob 264, lcbClx := leU32 blob 268 }
  else .ok {}

/-- Go `fib.parseFibRgFcLcb`: dispatch on the nFib version. -/
def parseFibRgFcLcb (nFib : Nat) (blob : List Nat) : Except String FibRgFcLcb97 :=
  if blob.length = 0 then .ok {} else
  if nFib = 0x00C1 ∨ nFib = 0x00D9 ∨ nFib = 0x0101 ∨ nFib = 0x010C ∨ nFib = 0x0112 then
    parseFibRgFcLcb97 blob
  else parseBasicFcLcb blob

/-- Go `fib.ParseFIB`.  Reader positions: FibBase occupies bytes 0..31, `Csw`
32..33, `FibRgW` the next up-to-28 bytes, `Cslw` the next 2, `FibRgLw` the
next up-to-76 bytes, `CbRgFcLcb` the next 2, then the blob. -/
def ParseFIB (data : List Nat) : Except String FileInformationBlock :=
  if data.length < 32 then .error "fib: data too short for FibBase" else
  let base := parseFibBase data
  if base.wIdent ≠ 0xA5EC then .error "fib: invalid wIdent, not a Word document" else
  if data.length < 34 then .error "fib: failed to read Csw" else
  let csw := leU16 data 32
  if data.length = 34 then .error "fib: failed to read FibRgW" else
  let pos1 := min (34 + 28) data.length
  if data.length - pos1 < 2 then .error "fib: failed to read Cslw" else
  let cslw := leU16 data pos1
  if data.length = pos1 + 2 then .error "fib: failed to read FibRgLw" else
  let pos2 := min (pos1 + 2 + 76) data.length
  if data.length - pos2 < 2 then .error "fib: failed to read CbRgFcLcb" else
  let cb := leU16 data pos2
  let blobSize := cb * 8
  if data.length - (pos2 + 2) < blobSize then
    .error "fib: data too short for RgFcLcbBlob" else
  let blob := goSlice data (pos2 + 2) (pos2 + 2 + blobSize)
  match parseFibRgFcLcb base.nFib blob with
  | .error e => .error e
  | .ok rg =>
    .ok { base := base, csw := csw, cslw := cslw, cbRgFcLcb := cb,
          rgFcLcbBlob := blob, rgFcLcb := rg }

/-- Go `fib.FileInformationBlock.IsEncrypted`: the fEncrypted flag. -/
def IsEncrypted (f : FileInformationBlock) : Bool :=
  (f.base.flags1 &&& 0x0100) != 0

/-- Go `fib.FileInformationBlock.IsObfuscated`: the fObfuscated flag. -/
def IsObfuscated (f : FileInformationBlock) : Bool :=
  (f.base.flags1 &&& 0x8000) != 0

/-- Go `fib.FileInformationBlock.GetTableStreamName`: the fWhichTblStm flag. -/
def GetTableStreamName (f : FileInformationBlock) : String :=
  if (f.base.flags1 &&& 0x0200) != 0 then "1Table" else "0Table"

/-! ## Package `ole2` (ole2/reader.go)

The backing `io.ReaderAt` is modelled as a `FileModel`: a size and a byte
function.  `ReadAt(p, off)` fails (with `io.EOF`) whenever fewer than `len(p)`
bytes are available at `off`; every call site of the source treats any error
as a failed read.  The Go `Reader` keeps the file handle; here the handle is
passed separately so that the parsed part (`ReaderData`) stays comparable. -/

/-- Random-access byte source. -/
structure FileModel where
  size : Nat
  byteAt : Nat → Nat

/-- The constant `sectorSize` of ole2/reader.go (hard-coded 512). -/
def sectorSize : Nat := 512

/-- The constant `dirEntrySize` of ole2/reader.go. -/
def dirEntrySize : Nat := 128

/-- Go `ReaderAt.ReadAt`: `len` bytes at `off`, error on any short read. -/
def readAt (f : FileModel) (off : Int) (len : Nat) : Except String (List Nat) :=
  if off < 0 then .error "ole2: negative offset" else
  if off.toNat + len ≤ f.size then
    .ok ((List.range len).map (fun k => f.byteAt (off.toNat + k)))
  else .error "ole2: read past end of input"

/-- The 32-bit LE field directly from the file (header parsing of `NewReader`;
equal to `leU32` of the 76-byte header read, at the same offset). -/
def fileU32 (f : FileModel) (off : Nat) : Nat :=
  f.byteAt off + 256 * f.byteAt (off + 1) + 65536 * f.byteAt (off + 2) +
    16777216 * f.byteAt (off + 3)

/-- The 64-bit LE field directly from the file. -/
def fileU64 (f : FileModel) (off : Nat) : Nat :=
  fileU32 f off + 4294967296 * fileU32 f (off + 4)

/-- Go `ole2.dirEntry`. -/
structure DirEntry where
  name : List Nat
  nameLen : Nat
  objectType : Nat
  colorFlag : Nat
  leftSibling : Int
  rightSibling : Int
  childID : Int
  clsid : List Nat
  stateBits : Nat
  creationTime : Nat
  modifiedTime : Nat
  startingSector : Int
  streamSize : Nat
deriving DecidableEq

/-- The parsed state of `ole2.Reader` (FAT and directory entries). -/
structure ReaderData where
  fat : List Nat
  dirEntries : List DirEntry
deriving DecidableEq

/-- The scan of the 109 header DIFAT entries in `NewReader`. -/
def scanHeaderDifat (difatBytes : List Nat) (fatSectorCount : Nat) : List Int :=
  (List.range 109).foldl (fun acc i =>
    let fatSecNum := toInt32 (leU32 difatBytes (i * 4))
    if fatSecNum ≥ 0 ∧ acc.length < fatSectorCount then acc ++ [fatSecNum] else acc) []

/-- The DIFAT sector chain walk in `NewReader`; the fuel is the loop counter
bound `difatSectorCount`.  A failed sector read breaks the loop keeping what
was collected. -/
def difatChainLoop (f : FileModel) (fatSectorCount : Nat) :
    Nat → Int → List Int → List Int
  | 0, _, acc => acc
  | fuel + 1, current, acc =>
    if ¬ (current ≥ 0 ∧ acc.length < fatSectorCount) then acc else
    match readAt f ((current + 1) * (sectorSize : Int)) sectorSize with
    | .error _ => acc
    | .ok sector =>
      let acc2 := (List.range 127).foldl (fun a j =>
        let fatSecNum := toInt32 (leU32 sector (j * 4))
        if fatSecNum ≥ 0 ∧ a.length < fatSectorCount then a ++ [fatSecNum] else a) acc
      difatChainLoop f fatSectorCount fuel (toInt32 (leU32 sector 508)) acc2

/-- The FAT-sector collection loop of `NewReader` (bad sectors are skipped). -/
def collectFatBytes (f : FileModel) (nums : List Int) : List Nat :=
  nums.foldl (fun acc secNum =>
    if secNum ≥ 0 then
      match readAt f ((secNum + 1) * (sectorSize : Int)) sectorSize with
      | .error _ => acc
      | .ok sector => acc ++ sector
    else acc) []

/-- The additional-directory-sector heuristic loop of `NewReader`.  Each read
sector has length 512 ≥ 128, so the Go length guard always takes its first
branch. -/
def dirAdditionalLoop (f : FileModel) (dirStartSector : Int) :
    Nat → Nat → List Nat → List Nat
  | 0, _, dirStream => dirStream
  | fuel + 1, k, dirStream =>
    match readAt f ((dirStartSector + 1 + (k : Int) + 1) * (sectorSize : Int)) sectorSize with
    | .error _ => dirStream
    | .ok sector =>
      if sector.getD 66 0 ≤ 5 ∧ 0 < leU16 sector 64 ∧ leU16 sector 64 ≤ 64 then
        dirAdditionalLoop f dirStartSector fuel (k + 1) (dirStream ++ sector)
      else dirStream

/-- The directory-stream read of `NewReader` (first sector mandatory, then the
bounded heuristic scan). -/
def readDirStream (f : FileModel) (dirStartSector : Int) : Except String (List Nat) :=
  if dirStartSector ≥ 0 then
    match readAt f ((dirStartSector + 1) * (sectorSize : Int)) sectorSize with
    | .error _ => .error "ole2: failed to read directory sector"
    | .ok sector =>
      let maxAdditionalSectors :=
        if 512 ≤ sector.length then (if sector.getD 66 0 ≤ 5 then 10 else 3) else 3
      .ok (dirAdditionalLoop f dirStartSector maxAdditionalSectors 0 sector)
  else .ok []

/-- The per-entry field extraction of `NewReader` from a 128-byte chunk. -/
def parseDirEntry (e : List Nat) : DirEntry :=
  { name := (List.range 32).map (fun j => leU16 e (j * 2))
    nameLen := leU16 e 64
    objectType := e.getD 66 0
    colorFlag := e.getD 67 0
    leftSibling := toInt32 (leU32 e 68)
    rightSibling := toInt32 (leU32 e 72)
    childID := toInt32 (leU32 e 76)
    clsid := goSlice e 80 96
    stateBits := leU32 e 96
    creationTime := leU64 e 100
    modifiedTime := leU64 e 108
    startingSector := toInt32 (leU32 e 116)
    streamSize := leU64 e 120 }

/-- Go `ole2.NewReader`. -/
def newReader (f : FileModel) : Except String ReaderData :=
  if ¬ (76 ≤ f.size) then .error "ole2: failed to read header" else
  if fileU64 f 0 ≠ 0xE11AB1A1E011CFD0 then .error "ole2: invalid signature" else
  let dirStartSector := toInt32 (fileU32 f 48)
  let fatSectorCount := fileU32 f 44
  let difatSectorCount := fileU32 f 68
  let difatFirstSector := toInt32 (fileU32 f 72)
  if ¬ (76 + 436 ≤ f.size) then .error "ole2: failed to read DIFAT" else
  let difatBytes := (List.range 436).map (fun k => f.byteAt (76 + k))
  let nums1 := scanHeaderDifat difatBytes fatSectorCount
  let nums :=
    if 0 < difatSectorCount ∧ difatSectorCount < 1000 ∧ difatFirstSector ≥ 0 ∧
        nums1.length < fatSectorCount then
      difatChainLoop f fatSectorCount difatSectorCount difatFirstSector nums1
    else nums1
  let fatSectors := collectFatBytes f nums
  let fat := (List.range (fatSectors.length / 4)).map (fun i => leU32 fatSectors (i * 4))
  match readDirStream f dirStartSector with
  | .error e => .error e
  | .ok dirStream =>
    let numDirs := dirStream.length / dirEntrySize
    let dirEntries := (List.range numDirs).map
      (fun i => parseDirEntry (goSlice dirStream (i * dirEntrySize) ((i + 1) * dirEntrySize)))
    .ok { fat := fat, dirEntries := dirEntries }

/-- Go `utf16.Decode`: UTF-16 units to runes, unpaired surrogates become U+FFFD. -/
def utf16DecodeRunes : List Nat → List Nat
  | [] => []
  | [u] => if 0xD800 ≤ u ∧ u < 0xE000 then [0xFFFD] else [u]
  | u :: v :: rest =>
    if 0xD800 ≤ u ∧ u < 0xDC00 then
      if 0xDC00 ≤ v ∧ v < 0xE000 then
        (0x10000 + (u - 0xD800) * 1024 + (v - 0xDC00)) :: utf16DecodeRunes rest
      else 0xFFFD :: utf16DecodeRunes (v :: rest)
    else if 0xDC00 ≤ u ∧ u < 0xE000 then 0xFFFD :: utf16DecodeRunes (v :: rest)
    else u :: utf16DecodeRunes (v :: rest)

/-- Go strings are modelled by Lean strings; `utf16.Decode` yields only valid
scalar values, so `Char.ofNat` is exact here. -/
def stringOfRunes (runes : List Nat) : String :=
  String.mk (runes.map Char.ofNat)

/-- The prefix-before-NUL scan of `ole2.utf16BytesToString`, bounded by
`maxChars`. -/
def prefixBeforeZero : Nat → List Nat → List Nat
  | 0, _ => []
  | _, [] => []
  | k + 1, u :: rest => if u = 0 then [] else u :: prefixBeforeZero k rest

/-- Go `ole2.utf16BytesToString`. -/
def utf16BytesToString (name : List Nat) (nameLen : Nat) : String :=
  if nameLen < 2 then "" else
  stringOfRunes (utf16DecodeRunes (prefixBeforeZero (nameLen / 2) name))

/-- Go `unicode.IsSpace` (the Unicode White_Space property, as Go defines it). -/
def isGoSpace (r : Nat) : Bool :=
  decide (r = 0x09 ∨ r = 0x0A ∨ r = 0x0B ∨ r = 0x0C ∨ r = 0x0D ∨ r = 0x20 ∨
    r = 0x85 ∨ r = 0xA0 ∨ r = 0x1680 ∨ (0x2000 ≤ r ∧ r ≤ 0x200A) ∨ r = 0x2028 ∨
    r = 0x2029 ∨ r = 0x202F ∨ r = 0x205F ∨ r = 0x3000)

/-- Go `strings.TrimSpace`. -/
def trimSpace (s : String) : String :=
  String.mk (((s.data.dropWhile (fun c => isGoSpace c.toNat)).reverse.dropWhile
    (fun c => isGoSpace c.toNat)).reverse)

/-- The sector-chain loop of `ole2.Reader.ReadStream`.  Each pass consumes at
least one remaining byte, so `streamSize` passes suffice; when the fuel runs
out `remaining` is zero and the Go loop would exit as well. -/
def readStreamLoop (f : FileModel) (fat : List Nat) (streamSize : Nat) :
    Nat → Int → Nat → List Nat → Except String (List Nat)
  | 0, _, _, acc => .ok acc
  | fuel + 1, sectorNum, remaining, acc =>
    if ¬ (sectorNum ≥ 0 ∧ 0 < remaining) then .ok acc else
    match readAt f ((sectorNum + 1) * (sectorSize : Int)) sectorSize with
    | .error e => .error e
    | .ok sector =>
      let sectorDataSize := min sectorSize remaining
      let acc2 := acc ++ sector.take sectorDataSize
      let remaining2 := remaining - sectorDataSize
      if sectorNum < (fat.length : Int) then
        let nextSector := fat.getD sectorNum.toNat 0
        if nextSector = 0xFFFFFFFE ∨ nextSector = 0xFFFFFFFF then .ok acc2
        else readStreamLoop f fat streamSize fuel (toInt32 nextSector) remaining2 acc2
      else
        if 0 < remaining2 ∧ streamSize ≤ sectorSize * 10 then
          readStreamLoop f fat streamSize fuel (sectorNum + 1) remaining2 acc2
        else .ok acc2

/-- The entry scan of `ole2.Reader.ReadStream`. -/
def readStreamEntries (f : FileModel) (fat : List Nat) (name : String) :
    List DirEntry → Except String (List Nat)
  | [] => .error "ole2: stream not found"
  | entry :: rest =>
    if entry.objectType = 2 ∧
        trimSpace (utf16BytesToString entry.name entry.nameLen) = trimSpace name then
      readStreamLoop f fat entry.streamSize entry.streamSize entry.startingSector
        entry.streamSize []
    else readStreamEntries f fat name rest

/-- Go `ole2.Reader.ReadStream`. -/
def ReadStream (f : FileModel) (rd : ReaderData) (name : String) :
    Except String (List Nat) :=
  readStreamEntries f rd.fat name rd.dirEntries

/-! ## Package `crypto` (crypto/rc4.go, crypto/encryption.go)

MD5 (used through Go's `crypto/md5`) and RC4 are given as executable
definitions over byte lists; 32-bit words are `Nat` kept below `2^32` with
explicit reductions. -/

/-- Addition modulo 2^32. -/
def add32 (a b : Nat) : Nat := (a + b) % 4294967296

/-- Left rotation of a 32-bit word (arguments below `2^32`). -/
def rotl32 (x n : Nat) : Nat := ((x <<< n) % 4294967296) ||| (x >>> (32 - n))

/-- The 64 MD5 sine constants. -/
def md5K : List Nat :=
  [0xd76aa478, 0xe8c7b756, 0x242070db, 0xc1bdceee, 0xf57c0faf, 0x4787c62a,
   0xa8304613, 0xfd469501, 0x698098d8, 0x8b44f7af, 0xffff5bb1, 0x895cd7be,
   0x6b901122, 0xfd987193, 0xa679438e, 0x49b40821, 0xf61e2562, 0xc040b340,
   0x265e5a51, 0xe9b6c7aa, 0xd62f105d, 0x02441453, 0xd8a1e681, 0xe7d3fbc8,
   0x21e1cde6, 0xc33707d6, 0xf4d50d87, 0x455a14ed, 0xa9e3e905, 0xfcefa3f8,
   0x676f02d9, 0x8d2a4c8a, 0xfffa3942, 0x8771f681, 0x6d9d6122, 0xfde5380c,
   0xa4beea44, 0x4bdecfa9, 0xf6bb4b60, 0xbebfbc70, 0x289b7ec6, 0xeaa127fa,
   0xd4ef3085, 0x04881d05, 0xd9d4d039, 0xe6db99e5, 0x1fa27cf8, 0xc4ac5665,
   0xf4292244, 0x432aff97, 0xab9423a7, 0xfc93a039, 0x655b59c3, 0x8f0ccc92,
   0xffeff47d, 0x85845dd1, 0x6fa87e4f, 0xfe2ce6e0, 0xa3014314, 0x4e0811a1,
   0xf7537e82, 0xbd3af235, 0x2ad7d2bb, 0xeb86d391]

/-- The 64 MD5 per-round shift amounts. -/
def md5S : List Nat :=
  [7, 12, 17, 22, 7, 12, 17, 22, 7, 12, 17, 22, 7, 12, 17, 22,
   5, 9, 14, 20, 5, 9, 14, 20, 5, 9, 14, 20, 5, 9, 14, 20,
   4, 11, 16, 23, 4, 11, 16, 23, 4, 11, 16, 23, 4, 11, 16, 23,
   6, 10, 15, 21, 6, 10, 15, 21, 6, 10, 15, 21, 6, 10, 15, 21]

/-- One MD5 round on state `(a, b, c, d)` with message words `M`. -/
def md5Round (M : List Nat) (st : Nat × Nat × Nat × Nat) (i : Nat) :
    Nat × Nat × Nat × Nat :=
  let (a, b, c, d) := st
  let f :=
    if i < 16 then (b &&& c) ||| ((b ^^^ 0xFFFFFFFF) &&& d)
    else if i < 32 then (d &&& b) ||| ((d ^^^ 0xFFFFFFFF) &&& c)
    else if i < 48 then b ^^^ c ^^^ d
    else c ^^^ (b ||| (d ^^^ 0xFFFFFFFF))
  let g :=
    if i < 16 then i
    else if i < 32 then (5 * i + 1) % 16
    else if i < 48 then (3 * i + 5) % 16
    else (7 * i) % 16
  let tmp := add32 (add32 (add32 a f) (md5K.getD i 0)) (M.getD g 0)
  (d, add32 b (rotl32 tmp (md5S.getD i 0)), b, c)

/-- Process one 64-byte MD5 block. -/
def md5ProcessBlock (st : Nat × Nat × Nat × Nat) (block : List Nat) :
    Nat × Nat × Nat × Nat :=
  let M := (List.range 16).map (fun i => leU32 block (i * 4))
  let (a0, b0, c0, d0) := st
  let (a, b, c, d) := (List.range 64).foldl (md5Round M) st
  (add32 a0 a, add32 b0 b, add32 c0 c, add32 d0 d)

/-- Split a list into 64-byte blocks (fuel-driven; callers pass enough). -/
def chunks64 : Nat → List Nat → List (List Nat)
  | 0, _ => []
  | fuel + 1, l => if l.length = 0 then [] else l.take 64 :: chunks64 fuel (l.drop 64)

/-- A 32-bit word as 4 little-endian bytes. -/
def u32Bytes (x : Nat) : List Nat :=
  [x % 256, x / 256 % 256, x / 65536 % 256, x / 16777216 % 256]

/-- MD5 of a byte list (RFC 1321 padding, little-endian length). -/
def md5 (msg : List Nat) : List Nat :=
  let padded := msg ++ 0x80 ::
    (List.replicate ((64 + 56 - (msg.length + 1) % 64) % 64) 0 ++
     (u32Bytes (msg.length * 8 % 4294967296) ++
      u32Bytes (msg.length * 8 / 4294967296 % 4294967296)))
  let blocks := chunks64 (padded.length / 64) padded
  let (a, b, c, d) :=
    blocks.foldl md5ProcessBlock (0x67452301, 0xefcdab89, 0x98badcfe, 0x10325476)
  u32Bytes a ++ (u32Bytes b ++ (u32Bytes c ++ u32Bytes d))

/-- Simultaneous swap `s[a], s[b] = s[b], s[a]`. -/
def listSwap (s : List Nat) (a b : Nat) : List Nat :=
  let va := s.getD a 0
  let vb := s.getD b 0
  (s.set a vb).set b va

/-- Go `crypto.RC4`: cipher state. -/
structure RC4 where
  s : List Nat
  i : Nat
  j : Nat
deriving DecidableEq

/-- The key-scheduling loop of `crypto.NewRC4` (byte arithmetic is mod 256). -/
def rc4Ksa (key : List Nat) : RC4 :=
  let res := (List.range 256).foldl (fun (p : List Nat × Nat) i =>
    let j := (p.2 + p.1.getD i 0 + key.getD (i % key.length) 0) % 256
    (listSwap p.1 i j, j)) (List.range 256, 0)
  ⟨res.1, 0, 0⟩

/-- Go `crypto.NewRC4`: rejects an empty key, then runs the KSA. -/
def NewRC4 (key : List Nat) : Except String RC4 :=
  if key.length = 0 then .error "rc4: key cannot be empty" else .ok (rc4Ksa key)

/-- One step of `crypto.RC4.Decrypt`. -/
def rc4DecByte (st : RC4) (b : Nat) : Nat × RC4 :=
  let i2 := (st.i + 1) % 256
  let j2 := (st.j + st.s.getD i2 0) % 256
  let s2 := listSwap st.s i2 j2
  (b ^^^ s2.getD ((s2.getD i2 0 + s2.getD j2 0) % 256) 0, ⟨s2, i2, j2⟩)

/-- Go `crypto.RC4.Decrypt`: XOR with the keystream, threading the mutable
cipher state explicitly. -/
def rc4Decrypt (st : RC4) (data : List Nat) : List Nat × RC4 :=
  data.foldl (fun (p : List Nat × RC4) b =>
    let r := rc4DecByte p.2 b
    (p.1 ++ [r.1], r.2)) ([], st)

/-- Accept range for the second byte of a UTF-8 sequence (Go `utf8`). -/
def utf8Accept2 (b0 b1 : Nat) : Bool :=
  if b0 = 0xE0 then decide (0xA0 ≤ b1 ∧ b1 ≤ 0xBF)
  else if b0 = 0xED then decide (0x80 ≤ b1 ∧ b1 ≤ 0x9F)
  else if b0 = 0xF0 then decide (0x90 ≤ b1 ∧ b1 ≤ 0xBF)
  else if b0 = 0xF4 then decide (0x80 ≤ b1 ∧ b1 ≤ 0x8F)
  else decide (0x80 ≤ b1 ∧ b1 ≤ 0xBF)

/-- Go's range-over-string rune decoding (`utf8.DecodeRune` repeatedly):
any invalid or truncated sequence yields U+FFFD and consumes one byte.
The fuel is the byte count. -/
def utf8DecodeRunes : Nat → List Nat → List Nat
  | 0, _ => []
  | _ + 1, [] => []
  | fuel + 1, b0 :: rest =>
    if b0 < 0x80 then b0 :: utf8DecodeRunes fuel rest
    else if b0 < 0xC2 ∨ 0xF4 < b0 then 0xFFFD :: utf8DecodeRunes fuel rest
    else if b0 ≤ 0xDF then
      match rest with
      | b1 :: rest2 =>
        if utf8Accept2 b0 b1 = true then
          ((b0 - 0xC0) * 64 + (b1 - 0x80)) :: utf8DecodeRunes fuel rest2
        else 0xFFFD :: utf8DecodeRunes fuel rest
      | [] => 0xFFFD :: utf8DecodeRunes fuel []
    else if b0 ≤ 0xEF then
      match rest with
      | b1 :: b2 :: rest3 =>
        if utf8Accept2 b0 b1 = true ∧ 0x80 ≤ b2 ∧ b2 ≤ 0xBF then
          ((b0 - 0xE0) * 4096 + ((b1 - 0x80) * 64 + (b2 - 0x80))) ::
            utf8DecodeRunes fuel rest3
        else 0xFFFD :: utf8DecodeRunes fuel rest
      | shortRest => 0xFFFD :: utf8DecodeRunes fuel shortRest
    else
      match rest with
      | b1 :: b2 :: b3 :: rest4 =>
        if utf8Accept2 b0 b1 = true ∧ 0x80 ≤ b2 ∧ b2 ≤ 0xBF ∧ 0x80 ≤ b3 ∧ b3 ≤ 0xBF then
          ((b0 - 0xF0) * 262144 +
            ((b1 - 0x80) * 4096 + ((b2 - 0x80) * 64 + (b3 - 0x80)))) ::
            utf8DecodeRunes fuel rest4
        else 0xFFFD :: utf8DecodeRunes fuel rest
      | shortRest => 0xFFFD :: utf8DecodeRunes fuel shortRest

/-- Go `crypto.GeneratePasswordHash`.  The Go argument is a string; it arrives
here as the raw bytes of that string, and the `range` loop re-encodes its
UTF-8 decoding as pairs `byte(r), byte(r >> 8)` before hashing with MD5.
An empty password yields `nil`. -/
def GeneratePasswordHash (password : List Nat) : List Nat :=
  if password.length = 0 then [] else
  md5 ((utf8DecodeRunes password.length password).flatMap
    (fun r => [r % 256, r / 256 % 256]))

/-- Go `crypto.GenerateDecryptionKey`: `MD5(passwordHash ++ salt[0:16])`. -/
def GenerateDecryptionKey (password salt : List Nat) : Except String (List Nat) :=
  if password.length = 0 then .error "password cannot be empty" else
  if salt.length < 16 then .error "salt must be at least 16 bytes" else
  .ok (md5 (GeneratePasswordHash password ++ salt.take 16))

/-- Go `crypto.EncryptionHeader` (fields used by password validation; the parsed
numeric header fields are carried along unchanged). -/
structure EncryptionHeader where
  version : Nat := 0
  encryptionFlags : Nat := 0
  headerSize : Nat := 0
  providerType : Nat := 0
  algID : Nat := 0
  algHashID : Nat := 0
  keySize : Nat := 0
  salt : List Nat
  encryptedVerifier : List Nat
  verifierHash : List Nat
deriving DecidableEq

/-- Go `crypto.EncryptionHeader.IsPasswordProtected`. -/
def IsPasswordProtected (h : EncryptionHeader) : Bool :=
  decide (0 < h.encryptedVerifier.length ∧ 0 < h.verifierHash.length)

/-- The comparison loop of `ValidatePassword`: element-wise equality over the
common prefix of the two hashes. -/
def hashesMatch (a b : List Nat) : Bool :=
  (List.range (min a.length b.length)).all (fun i => a.getD i 0 == b.getD i 0)

/-- Go `crypto.EncryptionHeader.ValidatePassword`. -/
def ValidatePassword (h : EncryptionHeader) (password : List Nat) :
    Except String Bool :=
  if IsPasswordProtected h = false then .error "document is not password protected" else
  match GenerateDecryptionKey password h.salt with
  | .error e => .error e
  | .ok key =>
    match NewRC4 key with
    | .error e => .error e
    | .ok rc4 =>
      let decryptedVerifier := (rc4Decrypt rc4 h.encryptedVerifier).1
      let verifierHash := GeneratePasswordHash decryptedVerifier
      .ok (hashesMatch verifierHash h.verifierHash)


/-! ## Package `msdoc` text extraction (pkg/msdoc/reader.go)

`Document.Text` output is a Go string; it is modelled as the list of that
string's bytes (ANSI pieces contribute their bytes verbatim, Unicode pieces
contribute the UTF-8 encoding of the decoded UTF-16 units).  The mutable
`*crypto.RC4` decryptor is threaded through the piece loop explicitly. -/

/-- Go `string(rune)` per-rune UTF-8 encoding (surrogates and out-of-range
runes become U+FFFD). -/
def utf8EncodeRune (r : Nat) : List Nat :=
  if r < 0x80 then [r]
  else if r < 0x800 then [0xC0 + r / 64, 0x80 + r % 64]
  else if 0xD800 ≤ r ∧ r < 0xE000 then [0xEF, 0xBF, 0xBD]
  else if r < 0x10000 then [0xE0 + r / 4096, 0x80 + r / 64 % 64, 0x80 + r % 64]
  else if r ≤ 0x10FFFF then
    [0xF0 + r / 262144, 0x80 + r / 4096 % 64, 0x80 + r / 64 % 64, 0x80 + r % 64]
  else [0xEF, 0xBF, 0xBD]

/-- The placeholder for a nil `*crypto.RC4` (never used when the piece loop
runs unencrypted). -/
def nilRC4 : RC4 := ⟨[], 0, 0⟩

/-- Out-of-range `getD` default for piece lists (never reached: the indices
are bounds-checked first). -/
def nilPCD : PCD := ⟨false, false, 0, false⟩

/-- Go `structures.PlcPcd.GetTextRange` (with `PLC.GetRange` inlined as in the
call chain). -/
def GetTextRange (t : PlcPcd) (i : Nat) : Except String (Nat × Nat × PCD) :=
  if t.pieces.length ≤ i then .error "plcpcd: invalid index" else
  if t.plc.data.length ≤ i then .error "plc: invalid index" else
  .ok (t.plc.cps.getD i 0, t.plc.cps.getD (i + 1) 0, t.pieces.getD i nilPCD)

/-- The loop body of `Document.extractTextFromPieces` over the remaining
piece indices, accumulating output bytes and the cipher state. -/
def extractPiecesLoop (t : PlcPcd) (wordStream : List Nat) (isEncrypted : Bool) :
    List Nat → List Nat → RC4 → Except String (List Nat × RC4)
  | [], acc, dec => .ok (acc, dec)
  | i :: rest, acc, dec =>
    match GetTextRange t i with
    | .error e => .error e
    | .ok (startCP, endCP, pcd) =>
      let charCount := cpDistance startCP endCP
      if charCount = 0 then extractPiecesLoop t wordStream isEncrypted rest acc dec else
      let filePos := GetActualFC pcd
      if pcd.isUnicode then
        let byteCount := charCount * 2
        if wordStream.length < filePos + byteCount then
          .error "WordDocument stream too small for Unicode text" else
        let bytes := goSlice wordStream filePos (filePos + byteCount)
        let dr :=
          if isEncrypted ∧ pcd.fNoEncryption = false then rc4Decrypt dec bytes
          else (bytes, dec)
        let u16s := (List.range charCount).map (fun j =>
          if j * 2 + 1 < dr.1.length then leU16 dr.1 (j * 2) else 0)
        extractPiecesLoop t wordStream isEncrypted rest
          (acc ++ (utf16DecodeRunes u16s).flatMap utf8EncodeRune) dr.2
      else
        if wordStream.length < filePos + charCount then
          .error "WordDocument stream too small for ANSI text" else
        let bytes := goSlice wordStream filePos (filePos + charCount)
        let dr :=
          if isEncrypted ∧ pcd.fNoEncryption = false then rc4Decrypt dec bytes
          else (bytes, dec)
        extractPiecesLoop t wordStream isEncrypted rest (acc ++ dr.1) dr.2

/-- Go `Document.extractTextFromPieces`. -/
def extractTextFromPieces (t : PlcPcd) (wordStream : List Nat) (isEncrypted : Bool)
    (dec : RC4) : Except String (List Nat) :=
  match extractPiecesLoop t wordStream isEncrypted (List.range t.plc.data.length) [] dec with
  | .error e => .error e
  | .ok r => .ok r.1

/-- Go `Document.extractUnencryptedText`.  The two `Reader.ReadStream` calls go
through the supplied `readStream` (the document's OLE2 reader). -/
def extractUnencryptedText (f : FileInformationBlock)
    (readStream : String → Except String (List Nat)) : Except String (List Nat) :=
  match readStream (GetTableStreamName f) with
  | .error e => .error e
  | .ok tableStream =>
    let clxOffset := f.rgFcLcb.fcClx
    let clxSize := f.rgFcLcb.lcbClx
    if clxSize = 0 then .ok [] else
    if tableStream.length < clxOffset + clxSize then
      .error "table stream too small for CLX data" else
    let clx := goSlice tableStream clxOffset (clxOffset + clxSize)
    if clx.length = 0 ∨ clx.getD 0 0 ≠ 0x02 then
      .error "invalid CLX structure, expected PlcPcd marker" else
    match ParsePlcPcd (clx.drop 1) with
    | .error e => .error e
    | .ok plcPcd =>
      match readStream "WordDocument" with
      | .error e => .error e
      | .ok wordStream => extractTextFromPieces plcPcd wordStream false nilRC4

/-! ## Spec-modelled definitions (for comparison with the code above) -/

/-- Modelled from the spec (§4.5): the per-block RC4 key, obtained by
appending the 4-byte little-endian block number to the derived key material
and re-hashing with MD5. -/
def specBlockKey (material : List Nat) (blockNum : Nat) : List Nat :=
  md5 (material ++ u32Bytes blockNum)

/-- Keystream byte `k` of the RC4 state `st`. -/
def rc4KeystreamByte (st : RC4) (k : Nat) : Nat :=
  ((rc4Decrypt st (List.replicate (k + 1) 0)).1).getD k 0

/-- Modelled from the spec (§4.5, claim C7): decrypt a piece that begins at
byte offset `b`, using for each byte the key of its 512-byte block with the
keystream advanced past the in-block offset, re-keying at block boundaries. -/
def specRekeyedDecrypt (material : List Nat) (b : Nat) (data : List Nat) : List Nat :=
  (List.range data.length).map (fun k =>
    data.getD k 0 ^^^
      rc4KeystreamByte (rc4Ksa (specBlockKey material ((b + k) / 512))) ((b + k) % 512))

/-- Modelled from the spec (§4.5, claim C6): password verification decrypts
the 16-byte verifier with the block-0 key — the derived key material with the
4-byte little-endian block number 0 appended and re-hashed with MD5 — and
compares the MD5 of the decrypted bytes themselves against the stored
verifier hash. -/
def specVerifierCheck (h : EncryptionHeader) (password : List Nat) : Bool :=
  match GenerateDecryptionKey password h.salt with
  | .error _ => false
  | .ok material =>
    md5 ((rc4Decrypt (rc4Ksa (specBlockKey material 0)) h.encryptedVerifier).1) ==
      h.verifierHash

/-! ## Concrete inputs used by the theorems below -/
/-- Concrete piece table used by the C10 witness: CPs `[0, 5]` and one PCD. -/
def c10data : List Nat :=
  [0, 0, 0, 0, 5, 0, 0, 0] ++ [1, 0, 0, 4, 0, 0x40, 0, 0]

def c10table : PlcPcd :=
  { plc := { cps := [0, 5], data := [[1, 0, 0, 4, 0, 0x40, 0, 0]], dataSize := 8 }
    pieces := [⟨true, false, 0x400, true⟩] }

/-- Concrete 16-byte PlcPcd payload for the C8 witness (one piece). -/
def c8data : List Nat := [0, 0, 0, 0, 11, 0, 0, 0] ++ [1, 0, 0, 2, 0, 0, 0, 0]

def c8table : PlcPcd :=
  { plc := { cps := [0, 11], data := [[1, 0, 0, 2, 0, 0, 0, 0]], dataSize := 8 }
    pieces := [⟨true, false, 0x200, false⟩] }

/-- Concrete FIB bytes used for the C3 counterexample: a valid FIB whose
`cbRgFcLcb` is 1 (an 8-byte fibRgFcLcb blob, far below 272 bytes). -/
def c3fibData : List Nat :=
  [0xEC, 0xA5, 0xC1, 0] ++ List.replicate 136 0 ++ [1, 0] ++ List.replicate 8 0

/-- FIB for the C2 example documents: table stream `0Table`, CLX at offset 0
of size 26. -/
def c2fib : FileInformationBlock :=
  { base := ⟨0xA5EC, 0x00C1, 0, 0, 0, 0, 0, 0, 0⟩
    csw := 0, cslw := 0, cbRgFcLcb := 0, rgFcLcbBlob := []
    rgFcLcb := { fcClx := 0, lcbClx := 26 } }

/-- A CLX that begins with a Prc block (tag 0x01, 2-byte length 2, payload)
followed by a well-formed PlcPcd block (tag 0x02, 4-byte length 16,
16-byte payload). -/
def c2tableStream : List Nat :=
  [0x01, 2, 0, 0xAA, 0xBB] ++ [0x02] ++ [16, 0, 0, 0] ++
  ([0, 0, 0, 0, 5, 0, 0, 0] ++ [0, 0, 0, 2, 0, 0, 0, 0])

def c2readStream : String → Except String (List Nat) :=
  fun name =>
    if name = "0Table" then .ok c2tableStream
    else if name = "WordDocument" then .ok (List.replicate 1024 0x41)
    else .error "ole2: stream not found"

def c2okFib : FileInformationBlock :=
  { base := ⟨0xA5EC, 0x00C1, 0, 0, 0, 0, 0, 0, 0⟩
    csw := 0, cslw := 0, cbRgFcLcb := 0, rgFcLcbBlob := []
    rgFcLcb := { fcClx := 0, lcbClx := 17 } }

def c2okStream : List Nat :=
  [0x02] ++ ([0, 0, 0, 0, 5, 0, 0, 0] ++ [0, 0, 0, 2, 0, 0, 0, 0])

def c2okReadStream : String → Except String (List Nat) :=
  fun name =>
    if name = "0Table" then .ok c2okStream
    else if name = "WordDocument" then .ok (List.replicate 1024 0x41)
    else .error "ole2: stream not found"

/-- Directory entry whose FAT chain is the self-loop `2 → 2`. -/
def c5entry : DirEntry :=
  { name := [87, 111, 114, 100, 68, 111, 99, 117, 109, 101, 110, 116] ++
      List.replicate 20 0
    nameLen := 26, objectType := 2, colorFlag := 0
    leftSibling := -1, rightSibling := -1, childID := -1
    clsid := List.replicate 16 0, stateBits := 0
    creationTime := 0, modifiedTime := 0
    startingSector := 2, streamSize := 1024 }

def rdrC5 : ReaderData :=
  { fat := [0xFFFFFFFD, 0xFFFFFFFE, 2, 0xFFFFFFFE], dirEntries := [c5entry] }

def fileC5 : FileModel := ⟨2048, fun i => i % 256⟩

/-- Small acyclic reader for the C5 witness. -/
def c5wEntry : DirEntry :=
  { name := [65] ++ List.replicate 31 0
    nameLen := 4, objectType := 2, colorFlag := 0
    leftSibling := -1, rightSibling := -1, childID := -1
    clsid := List.replicate 16 0, stateBits := 0
    creationTime := 0, modifiedTime := 0
    startingSector := 0, streamSize := 4 }

def rdrC5w : ReaderData := { fat := [0xFFFFFFFE], dirEntries := [c5wEntry] }

def fileC5w : FileModel := ⟨1024, fun i => i % 256⟩

/-- Header bytes of a minimal compound file; `shf` is the byte at offset 30,
the low byte of the header's sector_shift field. -/
def mockHeaderByte (shf : Nat) (i : Nat) : Nat :=
  if i = 0 then 0xD0 else if i = 1 then 0xCF else if i = 2 then 0x11
  else if i = 3 then 0xE0 else if i = 4 then 0xA1 else if i = 5 then 0xB1
  else if i = 6 then 0x1A else if i = 7 then 0xE1
  else if i = 30 then shf
  else if i = 44 then 1
  else if i = 48 then 1
  else if 72 ≤ i ∧ i < 76 then 0xFF
  else if 80 ≤ i ∧ i < 512 then 0xFF
  else 0

/-- FAT sector bytes: entries FATSECT, ENDOFCHAIN, ENDOFCHAIN, ENDOFCHAIN,
then FREESECT. -/
def mockFatByte (i : Nat) : Nat :=
  if i = 512 then 0xFD else if i = 516 ∨ i = 520 ∨ i = 524 then 0xFE else 0xFF

/-- Directory sector bytes: Root Entry (type 5), WordDocument (stream,
sector 2, 512 bytes), 0Table (stream, sector 3, 512 bytes), empty entry. -/
def mockDirByte (i : Nat) : Nat :=
  if i = 1024 then 82 else if i = 1026 then 111 else if i = 1028 then 111
  else if i = 1030 then 116 else if i = 1032 then 32 else if i = 1034 then 69
  else if i = 1036 then 110 else if i = 1038 then 116 else if i = 1040 then 114
  else if i = 1042 then 121
  else if i = 1088 then 22 else if i = 1090 then 5
  else if i = 1152 then 87 else if i = 1154 then 111 else if i = 1156 then 114
  else if i = 1158 then 100 else if i = 1160 then 68 else if i = 1162 then 111
  else if i = 1164 then 99 else if i = 1166 then 117 else if i = 1168 then 109
  else if i = 1170 then 101 else if i = 1172 then 110 else if i = 1174 then 116
  else if i = 1216 then 26 else if i = 1218 then 2 else if i = 1268 then 2
  else if i = 1273 then 2
  else if i = 1280 then 48 else if i = 1282 then 84 else if i = 1284 then 97
  else if i = 1286 then 98 else if i = 1288 then 108 else if i = 1290 then 101
  else if i = 1344 then 14 else if i = 1346 then 2 else if i = 1396 then 3
  else if i = 1401 then 2
  else 0

/-- A minimal 5-sector compound file whose sector_shift low byte is `shf`. -/
def mockFile (shf : Nat) : FileModel :=
  ⟨2560, fun i =>
    if i < 512 then mockHeaderByte shf i
    else if i < 1024 then mockFatByte i
    else if i < 1536 then mockDirByte i
    else 0⟩

/-- Password "a" as Go string bytes. -/
def c6pw : List Nat := [97]

/-- Encryption header built so that the claim's verification procedure
accepts password "a": the salt is all-zero, `encryptedVerifier` is the
16-byte RC4 keystream of the block-0 key `MD5(material ++ LE32 0)` for the
derived material `MD5(MD5(UTF-16LE "a") ++ salt)` — so the verifier the
claimed procedure decrypts is 16 zero bytes — and `verifierHash` is `MD5` of
those 16 zero bytes. -/
def c6header : EncryptionHeader :=
  { salt := List.replicate 16 0
    encryptedVerifier := [40, 29, 168, 98, 199, 37, 224, 32,
      46, 18, 170, 238, 20, 115, 222, 218]
    verifierHash := [74, 231, 19, 54, 228, 75, 249, 191,
      121, 210, 117, 46, 35, 72, 24, 165] }

/-- The derived key material `MD5(MD5(UTF-16LE "a") ++ c6header.salt)`, pinned
as a byte literal so proofs can key RC4 with a fully evaluated list. -/
def c6material : List Nat :=
  [18, 130, 37, 67, 37, 102, 58, 106, 207, 10, 60, 75, 201, 69, 223, 47]

/-- The block-0 key `MD5(c6material ++ LE32 0)` of spec §4.5, pinned as a byte
literal. -/
def c6blockKey : List Nat :=
  [239, 141, 25, 1, 45, 172, 215, 161, 93, 38, 219, 226, 68, 226, 190, 48]

/-- The 16 bytes `ValidatePassword` obtains by decrypting
`c6header.encryptedVerifier` with RC4 keyed on the plain `c6material`. -/
def c6codeDecrypted : List Nat :=
  [68, 159, 240, 11, 133, 118, 41, 153, 106, 3, 117, 124, 60, 174, 143, 233]

/-! ## Claim C7: per-block RC4 re-keying -/

/-- A piece table with a single 8-bit (ANSI) piece of `n` characters whose
file offset is `b`. -/
def onePieceTable (b n : Nat) : PlcPcd :=
  { plc := { cps := [0, n], data := [List.replicate 8 0], dataSize := 8 }
    pieces := [⟨false, false, b, false⟩] }

/-- A concrete 16-byte derived-key material for the C7 counterexample. -/
def c7material : List Nat := List.range 16

/-! ## Helper lemmas -/

theorem parsePCD_ok_iff (data : List Nat) (p : PCD) :
    ParsePCD data = .ok p ↔
      data.length = 8 ∧
      p = { fNoEncryption := (leU16 data 0 &&& 0x0001) != 0
            fComplex := (leU16 data 0 &&& 0x0002) != 0
            isUnicode := (leU32 data 2 &&& 0x40000000) != 0
            fc := leU32 data 2 &&& 0x3FFFFFFF } := by
  unfold ParsePCD
  by_cases hl : data.length ≠ 8
  · simp [hl]
  · simp only [hl, if_false]
    constructor
    · intro h
      exact ⟨by omega, (Except.ok.inj h).symm⟩
    · rintro ⟨-, h2⟩
      rw [h2]

theorem parsePCD_fc_lt (data : List Nat) (p : PCD) (h : ParsePCD data = .ok p) :
    p.fc < 2 ^ 30 := by
  obtain ⟨-, hp⟩ := (parsePCD_ok_iff data p).mp h
  subst hp
  exact lt_of_le_of_lt Nat.and_le_right (by norm_num)

theorem parseAllPCDs_mem (ds : List (List Nat)) (ps : List PCD)
    (h : parseAllPCDs ds = .ok ps) :
    ∀ p ∈ ps, ∃ d, ParsePCD d = .ok p := by
  induction ds generalizing ps with
  | nil =>
    unfold parseAllPCDs at h
    injection h with h
    subst h
    simp
  | cons d rest ih =>
    unfold parseAllPCDs at h
    cases hd : ParsePCD d with
    | error e => rw [hd] at h; cases h
    | ok p0 =>
      rw [hd] at h
      cases hr : parseAllPCDs rest with
      | error e => rw [hr] at h; cases h
      | ok ps0 =>
        rw [hr] at h
        injection h with h
        subst h
        intro p hp
        rcases List.mem_cons.mp hp with h1 | h2
        · exact ⟨d, by rw [hd, h1]⟩
        · exact ih ps0 hr p h2

/-! ## Claim theorems: C9, C10, C1 -/

/-- C9: for every parsed FIB, `GetTableStreamName` returns "1Table" exactly
when bit 0x0200 of flags1 is set (else "0Table"), and `IsEncrypted` returns
true exactly when bit 0x0100 of flags1 is set. -/
theorem C9_stream_name_and_encrypted_flag (f : FileInformationBlock) :
    (GetTableStreamName f = "1Table" ↔ f.base.flags1 &&& 0x0200 ≠ 0) ∧
    (GetTableStreamName f = "0Table" ↔ f.base.flags1 &&& 0x0200 = 0) ∧
    (IsEncrypted f = true ↔ f.base.flags1 &&& 0x0100 ≠ 0) := by
  unfold GetTableStreamName IsEncrypted
  by_cases h : f.base.flags1 &&& 0x0200 = 0
  · simp [h]
  · simp [h]

/-- C10: every piece descriptor produced by the piece-table parser stores an
FC with bits 30 and 31 cleared (`fc < 2^30`), and `GetActualFC` is therefore
also below `2^30`. -/
theorem C10_piece_table_fc_bound (data : List Nat) (t : PlcPcd)
    (h : ParsePlcPcd data = .ok t) :
    ∀ p ∈ t.pieces, p.fc < 2 ^ 30 ∧ GetActualFC p < 2 ^ 30 := by
  unfold ParsePlcPcd at h
  split at h
  · cases h
  · rename_i plc h1
    split at h
    · cases h
    · rename_i pieces h2
      injection h with h
      subst h
      intro p hp
      obtain ⟨d, hd⟩ := parseAllPCDs_mem plc.data pieces h2 p hp
      have hfc := parsePCD_fc_lt d p hd
      refine ⟨hfc, ?_⟩
      unfold GetActualFC
      split
      · exact lt_of_le_of_lt (Nat.div_le_self _ _) hfc
      · exact hfc

theorem C10_piece_table_fc_bound_witness :
    ParsePlcPcd c10data = .ok c10table ∧
    (∀ p ∈ c10table.pieces, p.fc < 2 ^ 30 ∧ GetActualFC p < 2 ^ 30) :=
  ⟨by decide, C10_piece_table_fc_bound c10data c10table (by decide)⟩

/-- C1 (amended): the decoder classifies a piece as Unicode exactly when bit
30 of the packed FC word is SET (not clear), and the byte offset is the
masked FC halved for Unicode pieces and unchanged for 8-bit pieces. -/
theorem C1_fc_packing (data : List Nat) (p : PCD) (h : ParsePCD data = .ok p) :
    (p.isUnicode = ((leU32 data 2 &&& 0x40000000) != 0)) ∧
    GetActualFC p =
      (if (leU32 data 2 &&& 0x40000000) != 0 then (leU32 data 2 &&& 0x3FFFFFFF) / 2
       else leU32 data 2 &&& 0x3FFFFFFF) := by
  obtain ⟨-, hp⟩ := (parsePCD_ok_iff data p).mp h
  subst hp
  exact ⟨rfl, rfl⟩

theorem C1_fc_packing_witness :
    ParsePCD [0, 0, 0, 2, 0, 0, 0, 0] = .ok ⟨false, false, 0x200, false⟩ ∧
    ((⟨false, false, 0x200, false⟩ : PCD).isUnicode =
        ((leU32 [0, 0, 0, 2, 0, 0, 0, 0] 2 &&& 0x40000000) != 0)) ∧
    GetActualFC ⟨false, false, 0x200, false⟩ =
      (if (leU32 [0, 0, 0, 2, 0, 0, 0, 0] 2 &&& 0x40000000) != 0 then
        (leU32 [0, 0, 0, 2, 0, 0, 0, 0] 2 &&& 0x3FFFFFFF) / 2
       else leU32 [0, 0, 0, 2, 0, 0, 0, 0] 2 &&& 0x3FFFFFFF) :=
  ⟨by decide, C1_fc_packing _ _ (by decide)⟩

/-- C1 counterexample: for the 8-byte descriptor with packed FC `0x40000400`
(bit 30 SET), the parser classifies the piece as Unicode and halves the
offset to `0x200`, while the claim (`is_unicode = (fc & 0x40000000) == 0`)
predicts an 8-bit piece at unchanged offset `0x400`. -/
theorem C1_fc_packing_counterexample :
    ParsePCD [1, 0, 0, 4, 0, 0x40, 0, 0] = .ok ⟨true, false, 0x400, true⟩ ∧
    leU32 [1, 0, 0, 4, 0, 0x40, 0, 0] 2 = 0x40000400 ∧
    (0x40000400 &&& 0x40000000 ≠ 0) ∧
    GetActualFC ⟨true, false, 0x400, true⟩ = 0x200 := by decide

/-! ## Claim C8: PlcPcd shape -/

theorem goSlice_length (data : List Nat) (a b : Nat) :
    (goSlice data a b).length = min (b - a) (data.length - a) := by
  simp [goSlice]

theorem readPlcCPs_ok (data : List Nat) (k i : Nat) (hb : (i + k) * 4 ≤ data.length) :
    readPlcCPs data k i =
      .ok ((List.range k).map (fun j => leU32 data ((i + j) * 4))) := by
  induction k generalizing i with
  | zero => simp [readPlcCPs]
  | succ k ih =>
    unfold readPlcCPs
    rw [if_neg (show ¬ (i * 4 + 4 > data.length) by omega)]
    rw [ih (i + 1) (by omega)]
    rw [List.range_succ_eq_map]
    simp only [List.map_cons, List.map_map, Nat.add_zero]
    congr 1
    congr 1
    apply List.map_congr_left
    intro j _
    simp only [Function.comp]
    congr 1
    omega

theorem readPlcData_ok (data : List Nat) (off ds k i : Nat)
    (hb : off + (i + k) * ds ≤ data.length) :
    readPlcData data off ds k i =
      .ok ((List.range k).map (fun j =>
        goSlice data (off + (i + j) * ds) (off + (i + j) * ds + ds))) := by
  induction k generalizing i with
  | zero => simp [readPlcData]
  | succ k ih =>
    unfold readPlcData
    rw [if_neg (show ¬ (off + i * ds + ds > data.length) by nlinarith)]
    rw [ih (i + 1) (by nlinarith)]
    rw [List.range_succ_eq_map]
    simp only [List.map_cons, List.map_map, Nat.add_zero]
    congr 1
    congr 1
    apply List.map_congr_left
    intro j _
    simp only [Function.comp, Nat.succ_eq_add_one]
    rw [show i + 1 + j = i + (j + 1) from by omega]

theorem parsePCD_ok_of_len (d : List Nat) (hd : d.length = 8) :
    ParsePCD d = .ok { fNoEncryption := (leU16 d 0 &&& 0x0001) != 0
                       fComplex := (leU16 d 0 &&& 0x0002) != 0
                       isUnicode := (leU32 d 2 &&& 0x40000000) != 0
                       fc := leU32 d 2 &&& 0x3FFFFFFF } :=
  (parsePCD_ok_iff d _).mpr ⟨hd, rfl⟩

theorem parseAllPCDs_ok_of_len (ds : List (List Nat)) (h : ∀ d ∈ ds, d.length = 8) :
    ∃ ps, parseAllPCDs ds = .ok ps ∧ ps.length = ds.length := by
  induction ds with
  | nil => exact ⟨[], rfl, rfl⟩
  | cons d rest ih =>
    obtain ⟨ps, hps, hlen⟩ := ih (fun x hx => h x (List.mem_cons_of_mem _ hx))
    have hd : d.length = 8 := h d (List.mem_cons_self _ _)
    refine ⟨{ fNoEncryption := (leU16 d 0 &&& 0x0001) != 0
              fComplex := (leU16 d 0 &&& 0x0002) != 0
              isUnicode := (leU32 d 2 &&& 0x40000000) != 0
              fc := leU32 d 2 &&& 0x3FFFFFFF } :: ps, ?_, by simp [hlen]⟩
    unfold parseAllPCDs
    rw [parsePCD_ok_of_len d hd, hps]

theorem parsePLC8_ok (data : List Nat) (h4 : 4 ≤ data.length)
    (hm : (data.length - 4) % 12 = 0) :
    ParsePLC data 8 =
      .ok { cps := (List.range ((data.length - 4) / 12 + 1)).map
              (fun j => leU32 data (j * 4))
            data := (List.range ((data.length - 4) / 12)).map (fun j =>
              goSlice data (((data.length - 4) / 12 + 1) * 4 + j * 8)
                (((data.length - 4) / 12 + 1) * 4 + j * 8 + 8))
            dataSize := 8 } := by
  have hcps := readPlcCPs_ok data ((data.length - 4) / 12 + 1) 0 (by omega)
  have hdata := readPlcData_ok data (((data.length - 4) / 12 + 1) * 4) 8
    ((data.length - 4) / 12) 0 (by omega)
  simp only [Nat.zero_add] at hcps hdata
  unfold ParsePLC
  rw [if_neg (show ¬ (data.length < 4) by omega), if_neg (show ¬ ((8:Nat) = 0) by decide),
    if_neg (show ¬ ((data.length - 4) % (8 + 4) ≠ 0) by omega)]
  simp only [show (8:Nat) + 4 = 12 from rfl, hcps, hdata]

theorem parsePlcPcd_error_of_plc (data : List Nat) (e : String)
    (h : ParsePLC data 8 = .error e) : ParsePlcPcd data = .error e := by
  unfold ParsePlcPcd
  rw [h]

/-- C8: for a PlcPcd payload of length L, the parser accepts exactly when
(L − 4) mod 12 = 0 (as integers, so short payloads are rejected too); on
success it yields n = (L − 4)/12 pieces, with the n+1 CPs read as u32 LE from
the first (n+1)*4 bytes, the n descriptors taken as the 8-byte chunks that
follow, and len(cps) = len(pieces) + 1. -/
theorem C8_plcpcd_shape (data : List Nat) :
    ((ParsePlcPcd data).isOk = true ↔ ((data.length : Int) - 4) % 12 = 0) ∧
    (∀ t, ParsePlcPcd data = .ok t →
      t.plc.cps = (List.range ((data.length - 4) / 12 + 1)).map
        (fun i => leU32 data (i * 4)) ∧
      t.plc.data = (List.range ((data.length - 4) / 12)).map (fun i =>
        goSlice data (((data.length - 4) / 12 + 1) * 4 + i * 8)
          (((data.length - 4) / 12 + 1) * 4 + i * 8 + 8)) ∧
      t.pieces.length = (data.length - 4) / 12 ∧
      t.plc.cps.length = t.pieces.length + 1) := by
  by_cases hcond : ((data.length : Int) - 4) % 12 = 0
  · have h4 : 4 ≤ data.length := by omega
    have hm : (data.length - 4) % 12 = 0 := by omega
    have hplc := parsePLC8_ok data h4 hm
    have hlen8 : ∀ d ∈ (List.range ((data.length - 4) / 12)).map (fun j =>
        goSlice data (((data.length - 4) / 12 + 1) * 4 + j * 8)
          (((data.length - 4) / 12 + 1) * 4 + j * 8 + 8)), d.length = 8 := by
      intro d hd
      obtain ⟨j, hj, rfl⟩ := List.mem_map.mp hd
      have hj' : j < (data.length - 4) / 12 := List.mem_range.mp hj
      rw [goSlice_length]
      omega
    obtain ⟨ps, hps, hpslen⟩ := parseAllPCDs_ok_of_len _ hlen8
    have hok : ParsePlcPcd data =
        .ok { plc := { cps := (List.range ((data.length - 4) / 12 + 1)).map
                        (fun j => leU32 data (j * 4))
                       data := (List.range ((data.length - 4) / 12)).map (fun j =>
                        goSlice data (((data.length - 4) / 12 + 1) * 4 + j * 8)
                          (((data.length - 4) / 12 + 1) * 4 + j * 8 + 8))
                       dataSize := 8 }
              pieces := ps } := by
      unfold ParsePlcPcd
      simp only [hplc, hps]
    constructor
    · simp [hok, hcond, Except.isOk, Except.toBool]
    · intro t ht
      rw [hok] at ht
      injection ht with ht
      subst ht
      refine ⟨rfl, rfl, by simpa using hpslen, ?_⟩
      simp only [List.length_map, List.length_range]
      simpa using hpslen.symm
  · constructor
    · constructor
      · intro hok
        exfalso
        by_cases h4 : data.length < 4
        · have : ParsePlcPcd data = .error "plc: data too short, need at least 4 bytes" := by
            apply parsePlcPcd_error_of_plc
            unfold ParsePLC
            rw [if_pos h4]
          rw [this] at hok
          cases hok
        · have hm : (data.length - 4) % 12 ≠ 0 := by omega
          have : ParsePlcPcd data = .error "plc: invalid PLC size" := by
            apply parsePlcPcd_error_of_plc
            unfold ParsePLC
            rw [if_neg h4, if_neg (by decide), if_pos (by simpa using hm)]
          rw [this] at hok
          cases hok
      · intro hc
        exact absurd hc hcond
    · intro t ht
      exfalso
      have hok : (ParsePlcPcd data).isOk = true := by rw [ht]; rfl
      by_cases h4 : data.length < 4
      · have : ParsePlcPcd data = .error "plc: data too short, need at least 4 bytes" := by
          apply parsePlcPcd_error_of_plc
          unfold ParsePLC
          rw [if_pos h4]
        rw [this] at ht
        cases ht
      · have hm : (data.length - 4) % 12 ≠ 0 := by omega
        have : ParsePlcPcd data = .error "plc: invalid PLC size" := by
          apply parsePlcPcd_error_of_plc
          unfold ParsePLC
          rw [if_neg h4, if_neg (by decide), if_pos (by simpa using hm)]
        rw [this] at ht
        cases ht

theorem C8_plcpcd_shape_witness :
    ParsePlcPcd c8data = .ok c8table ∧
    (c8table.plc.cps = (List.range ((c8data.length - 4) / 12 + 1)).map
        (fun i => leU32 c8data (i * 4)) ∧
      c8table.plc.data = (List.range ((c8data.length - 4) / 12)).map (fun i =>
        goSlice c8data (((c8data.length - 4) / 12 + 1) * 4 + i * 8)
          (((c8data.length - 4) / 12 + 1) * 4 + i * 8 + 8)) ∧
      c8table.pieces.length = (c8data.length - 4) / 12 ∧
      c8table.plc.cps.length = c8table.pieces.length + 1) :=
  ⟨by decide, (C8_plcpcd_shape c8data).2 c8table (by decide)⟩

/-! ## Claim C3: FIB fcClx location and short-blob behavior -/

theorem getD_map_range (n i d : Nat) (f : Nat → Nat) (h : i < n) :
    (((List.range n).map f).getD i d) = f i := by
  rw [List.getD_eq_getElem?_getD, List.getElem?_map, List.getElem?_range h]
  rfl

/-- C3 (amended): for every supported nFib version the parser takes
(fcClx, lcbClx) from byte offset 264 of the fibRgFcLcb blob whenever the blob
holds at least 272 bytes; a shorter blob is NOT an error: parsing succeeds
(for any blob of length 0 or ≥ 8) and leaves fcClx = lcbClx = 0. -/
theorem C3_fcclx_offset (nFib : Nat) (blob : List Nat)
    (hn : nFib = 0x00C1 ∨ nFib = 0x00D9 ∨ nFib = 0x0101 ∨ nFib = 0x010C ∨ nFib = 0x0112) :
    (272 ≤ blob.length →
      ∃ r, parseFibRgFcLcb nFib blob = .ok r ∧
        r.fcClx = leU32 blob 264 ∧ r.lcbClx = leU32 blob 268) ∧
    (8 ≤ blob.length → blob.length < 272 →
      ∃ r, parseFibRgFcLcb nFib blob = .ok r ∧ r.fcClx = 0 ∧ r.lcbClx = 0) := by
  have hdisp : parseFibRgFcLcb nFib blob =
      (if blob.length = 0 then .ok {} else parseFibRgFcLcb97 blob) := by
    unfold parseFibRgFcLcb
    by_cases h0 : blob.length = 0
    · rw [if_pos h0, if_pos h0]
    · rw [if_neg h0, if_neg h0, if_pos hn]
  constructor
  · intro h272
    rw [hdisp, if_neg (show ¬ (blob.length = 0) by omega)]
    unfold parseFibRgFcLcb97
    rw [if_neg (show ¬ (blob.length < 8) by omega)]
    refine ⟨_, rfl, ?_, ?_⟩
    · show (if 68 ≤ blob.length / 4 then
          (((List.range (blob.length / 4)).map (fun i => leU32 blob (i * 4))).getD 66 0)
        else 0) = leU32 blob 264
      rw [if_pos (by omega), getD_map_range _ _ _ _ (by omega)]
    · show (if 68 ≤ blob.length / 4 then
          (((List.range (blob.length / 4)).map (fun i => leU32 blob (i * 4))).getD 67 0)
        else 0) = leU32 blob 268
      rw [if_pos (by omega), getD_map_range _ _ _ _ (by omega)]
  · intro h8 h272
    rw [hdisp, if_neg (show ¬ (blob.length = 0) by omega)]
    unfold parseFibRgFcLcb97
    rw [if_neg (show ¬ (blob.length < 8) by omega)]
    refine ⟨_, rfl, ?_, ?_⟩
    · show (if 68 ≤ blob.length / 4 then
          (((List.range (blob.length / 4)).map (fun i => leU32 blob (i * 4))).getD 66 0)
        else 0) = 0
      rw [if_neg (by omega)]
    · show (if 68 ≤ blob.length / 4 then
          (((List.range (blob.length / 4)).map (fun i => leU32 blob (i * 4))).getD 67 0)
        else 0) = 0
      rw [if_neg (by omega)]

set_option maxRecDepth 100000 in
theorem C3_fcclx_offset_witness :
    ((0x00C1 = 0x00C1 ∨ 0x00C1 = 0x00D9 ∨ 0x00C1 = 0x0101 ∨ 0x00C1 = 0x010C ∨
        0x00C1 = 0x0112) ∧ 272 ≤ (List.replicate 272 (7 : Nat)).length) ∧
    (∃ r, parseFibRgFcLcb 0x00C1 (List.replicate 272 (7 : Nat)) = .ok r ∧
      r.fcClx = leU32 (List.replicate 272 (7 : Nat)) 264 ∧
      r.lcbClx = leU32 (List.replicate 272 (7 : Nat)) 268) :=
  ⟨⟨Or.inl rfl, by decide⟩,
    (C3_fcclx_offset 0x00C1 (List.replicate 272 7) (Or.inl rfl)).1 (by decide)⟩

set_option maxRecDepth 400000 in
/-- C3 counterexample: `ParseFIB` succeeds (no MalformedFib error) on a FIB
whose fibRgFcLcb blob is only 8 bytes (< 272); fcClx/lcbClx silently stay 0. -/
theorem C3_fcclx_offset_counterexample :
    (ParseFIB c3fibData).isOk = true ∧
    (ParseFIB c3fibData).toOption.map
      (fun f => (f.rgFcLcbBlob.length, f.rgFcLcb.fcClx, f.rgFcLcb.lcbClx)) =
      some (8, 0, 0) := by decide

/-! ## Claim C2: CLX scan -/

theorem goSlice_getD_zero (data : List Nat) (a b : Nat) (hab : a < b)
    (ha : a < data.length) :
    (goSlice data a b).getD 0 0 = data.getD a 0 := by
  unfold goSlice
  rw [List.getD_eq_getElem?_getD, List.getD_eq_getElem?_getD]
  rw [List.getElem?_take_of_lt (by omega), List.getElem?_drop]
  simp

/-- C2 (amended): the CLX scan does not skip Prc blocks.  The decoder
requires the single byte at `fcClx` to be the PlcPcd tag 0x02 and treats the
remaining `lcbClx − 1` bytes as the PlcPcd payload; any other leading byte —
including the Prc tag 0x01 — produces the malformed-CLX error. -/
theorem C2_clx_scan (f : FileInformationBlock) (rs : String → Except String (List Nat))
    (tbl : List Nat)
    (h1 : rs (GetTableStreamName f) = .ok tbl)
    (h2 : f.rgFcLcb.lcbClx ≠ 0)
    (h3 : f.rgFcLcb.fcClx + f.rgFcLcb.lcbClx ≤ tbl.length) :
    (tbl.getD f.rgFcLcb.fcClx 0 ≠ 0x02 →
      extractUnencryptedText f rs = .error "invalid CLX structure, expected PlcPcd marker") ∧
    (tbl.getD f.rgFcLcb.fcClx 0 = 0x02 →
      extractUnencryptedText f rs =
        match ParsePlcPcd ((goSlice tbl f.rgFcLcb.fcClx
            (f.rgFcLcb.fcClx + f.rgFcLcb.lcbClx)).drop 1) with
        | .error e => .error e
        | .ok t =>
          match rs "WordDocument" with
          | .error e => .error e
          | .ok ws => extractTextFromPieces t ws false nilRC4) := by
  have hhead : (goSlice tbl f.rgFcLcb.fcClx
      (f.rgFcLcb.fcClx + f.rgFcLcb.lcbClx)).getD 0 0 = tbl.getD f.rgFcLcb.fcClx 0 :=
    goSlice_getD_zero tbl _ _ (by omega) (by omega)
  have hlen : (goSlice tbl f.rgFcLcb.fcClx
      (f.rgFcLcb.fcClx + f.rgFcLcb.lcbClx)).length = f.rgFcLcb.lcbClx := by
    rw [goSlice_length]; omega
  constructor
  · intro htag
    unfold extractUnencryptedText
    simp only [h1]
    rw [if_neg h2, if_neg (show ¬ (tbl.length < f.rgFcLcb.fcClx + f.rgFcLcb.lcbClx) by omega)]
    rw [if_pos (Or.inr (by rw [hhead]; exact htag))]
  · intro htag
    unfold extractUnencryptedText
    simp only [h1]
    rw [if_neg h2, if_neg (show ¬ (tbl.length < f.rgFcLcb.fcClx + f.rgFcLcb.lcbClx) by omega)]
    rw [if_neg (show ¬ ((goSlice tbl f.rgFcLcb.fcClx
        (f.rgFcLcb.fcClx + f.rgFcLcb.lcbClx)).length = 0 ∨
        (goSlice tbl f.rgFcLcb.fcClx
          (f.rgFcLcb.fcClx + f.rgFcLcb.lcbClx)).getD 0 0 ≠ 0x02) by
      push_neg
      exact ⟨by omega, by rw [hhead]; exact htag⟩)]

set_option maxRecDepth 100000 in
/-- C2 counterexample: the CLX starts with a Prc block (tag 0x01) followed by
a valid PlcPcd block, which the claim says must be skipped; the code instead
rejects the document with the malformed-CLX error. -/
theorem C2_clx_scan_counterexample :
    c2tableStream.getD 0 0 = 0x01 ∧
    extractUnencryptedText c2fib c2readStream =
      .error "invalid CLX structure, expected PlcPcd marker" := by decide

set_option maxRecDepth 100000 in
theorem C2_clx_scan_witness :
    (c2okReadStream (GetTableStreamName c2okFib) = .ok c2okStream ∧
      c2okFib.rgFcLcb.lcbClx ≠ 0 ∧
      c2okFib.rgFcLcb.fcClx + c2okFib.rgFcLcb.lcbClx ≤ c2okStream.length ∧
      c2okStream.getD c2okFib.rgFcLcb.fcClx 0 = 0x02) ∧
    extractUnencryptedText c2okFib c2okReadStream =
      (match ParsePlcPcd ((goSlice c2okStream c2okFib.rgFcLcb.fcClx
          (c2okFib.rgFcLcb.fcClx + c2okFib.rgFcLcb.lcbClx)).drop 1) with
        | .error e => .error e
        | .ok t =>
          match c2okReadStream "WordDocument" with
          | .error e => .error e
          | .ok ws => extractTextFromPieces t ws false nilRC4) :=
  ⟨⟨by decide, by decide, by decide, by decide⟩,
    (C2_clx_scan c2okFib c2okReadStream c2okStream (by decide) (by decide)
      (by decide)).2 (by decide)⟩

/-! ## Claim C5: cyclic FAT chains in ReadStream -/

theorem readAt_ok_length (f : FileModel) (off : Int) (len : Nat) (l : List Nat)
    (h : readAt f off len = .ok l) : l.length = len := by
  unfold readAt at h
  by_cases h1 : off < 0
  · rw [if_pos h1] at h; cases h
  · rw [if_neg h1] at h
    by_cases h2 : off.toNat + len ≤ f.size
    · rw [if_pos h2] at h
      injection h with h
      subst h
      simp
    · rw [if_neg h2] at h; cases h

theorem readStreamLoop_le (f : FileModel) (fat : List Nat) (streamSize : Nat) :
    ∀ fuel (secNum : Int) remaining (acc out : List Nat),
      readStreamLoop f fat streamSize fuel secNum remaining acc = .ok out →
      out.length ≤ acc.length + remaining := by
  intro fuel
  induction fuel with
  | zero =>
    intro secNum remaining acc out h
    unfold readStreamLoop at h
    injection h with h
    subst h
    omega
  | succ fuel ih =>
    intro secNum remaining acc out h
    unfold readStreamLoop at h
    by_cases hg : ¬ (secNum ≥ 0 ∧ 0 < remaining)
    · rw [if_pos hg] at h
      injection h with h
      subst h
      omega
    · rw [if_neg hg] at h
      cases hra : readAt f ((secNum + 1) * (sectorSize : Int)) sectorSize with
      | error e =>
        simp only [hra] at h
        cases h
      | ok sector =>
        have hslen : sector.length = sectorSize := readAt_ok_length _ _ _ _ hra
        simp only [hra] at h
        by_cases hf : secNum < (fat.length : Int)
        · rw [if_pos hf] at h
          by_cases hs : fat.getD secNum.toNat 0 = 0xFFFFFFFE ∨
              fat.getD secNum.toNat 0 = 0xFFFFFFFF
          · rw [if_pos hs] at h
            injection h with h
            subst h
            rw [List.length_append, List.length_take]
            omega
          · rw [if_neg hs] at h
            have hih := ih _ _ _ _ h
            rw [List.length_append, List.length_take] at hih
            omega
        · rw [if_neg hf] at h
          by_cases hr2 : 0 < remaining - min sectorSize remaining ∧
              streamSize ≤ sectorSize * 10
          · rw [if_pos hr2] at h
            have hih := ih _ _ _ _ h
            rw [List.length_append, List.length_take] at hih
            omega
          · rw [if_neg hr2] at h
            injection h with h
            subst h
            rw [List.length_append, List.length_take]
            omega

theorem readStreamEntries_le (f : FileModel) (fat : List Nat) (name : String) :
    ∀ entries (out : List Nat), readStreamEntries f fat name entries = .ok out →
      ∃ e, e ∈ entries ∧ out.length ≤ e.streamSize := by
  intro entries
  induction entries with
  | nil =>
    intro out h
    unfold readStreamEntries at h
    cases h
  | cons entry rest ih =>
    intro out h
    unfold readStreamEntries at h
    by_cases hm : entry.objectType = 2 ∧
        trimSpace (utf16BytesToString entry.name entry.nameLen) = trimSpace name
    · rw [if_pos hm] at h
      have hle := readStreamLoop_le f fat entry.streamSize entry.streamSize
        entry.startingSector entry.streamSize [] out h
      exact ⟨entry, List.mem_cons_self _ _, by simpa using hle⟩
    · rw [if_neg hm] at h
      obtain ⟨e, he, hle⟩ := ih out h
      exact ⟨e, List.mem_cons_of_mem _ he, hle⟩

/-- C5 (amended): `ReadStream` performs no cycle detection and never returns
a corrupt-file error for a cyclic FAT: its loop terminates because the
remaining-size counter shrinks every pass, and whatever it returns — also on
a cyclic chain — is at most the directory entry's declared stream size of
(possibly repeated) sector data. -/
theorem C5_readstream_no_cycle_error (f : FileModel) (rd : ReaderData) (name : String)
    (out : List Nat) (h : ReadStream f rd name = .ok out) :
    ∃ e, e ∈ rd.dirEntries ∧ out.length ≤ e.streamSize :=
  readStreamEntries_le f rd.fat name rd.dirEntries out h

set_option maxRecDepth 1000000 in
/-- C5 counterexample: the FAT maps sector 2 to itself and the stream starts
at sector 2, a cycle; `ReadStream` does not return a corrupt-file error but
1024 bytes of data — sector 2's 512 bytes twice. -/
theorem C5_readstream_no_cycle_error_counterexample :
    rdrC5.fat.getD 2 0 = 2 ∧ c5entry.startingSector = 2 ∧
    rdrC5.dirEntries = [c5entry] ∧
    ReadStream fileC5 rdrC5 "WordDocument" =
      .ok ((List.range 512).map (fun k => (1536 + k) % 256) ++
        (List.range 512).map (fun k => (1536 + k) % 256)) := by decide

set_option maxRecDepth 1000000 in
theorem C5_readstream_no_cycle_error_witness :
    ReadStream fileC5w rdrC5w "A" = .ok [0, 1, 2, 3] ∧
    ∃ e, e ∈ rdrC5w.dirEntries ∧ ([0, 1, 2, 3] : List Nat).length ≤ e.streamSize :=
  ⟨by decide, C5_readstream_no_cycle_error fileC5w rdrC5w "A" [0, 1, 2, 3] (by decide)⟩

/-! ## Claim C4: the sector-shift field is never read -/

theorem readAt_agree (f g : FileModel) (hsz : f.size = g.size)
    (hag : ∀ i, i ≠ 30 → i ≠ 31 → f.byteAt i = g.byteAt i)
    (off : Int) (len : Nat) (hoff : 32 ≤ off) :
    readAt f off len = readAt g off len := by
  unfold readAt
  rw [hsz]
  rw [if_neg (show ¬ (off < 0) by omega), if_neg (show ¬ (off < 0) by omega)]
  by_cases h2 : off.toNat + len ≤ g.size
  · rw [if_pos h2, if_pos h2]
    congr 1
    apply List.map_congr_left
    intro k _
    exact hag _ (by omega) (by omega)
  · rw [if_neg h2, if_neg h2]

theorem difatChainLoop_agree (f g : FileModel) (hsz : f.size = g.size)
    (hag : ∀ i, i ≠ 30 → i ≠ 31 → f.byteAt i = g.byteAt i) (fc : Nat) :
    ∀ fuel (cur : Int) (acc : List Int),
      difatChainLoop f fc fuel cur acc = difatChainLoop g fc fuel cur acc := by
  intro fuel
  induction fuel with
  | zero => intro cur acc; rfl
  | succ fuel ih =>
    intro cur acc
    unfold difatChainLoop
    by_cases hg2 : ¬ (cur ≥ 0 ∧ acc.length < fc)
    · rw [if_pos hg2, if_pos hg2]
    · rw [if_neg hg2, if_neg hg2]
      push_neg at hg2
      rw [readAt_agree f g hsz hag _ _ (by have := hg2.1; unfold sectorSize; omega)]
      cases hres : readAt g ((cur + 1) * (sectorSize : Int)) sectorSize with
      | error e => simp only [hres]
      | ok sector =>
        simp only [hres]
        exact ih _ _

theorem collectFatBytes_agree (f g : FileModel) (hsz : f.size = g.size)
    (hag : ∀ i, i ≠ 30 → i ≠ 31 → f.byteAt i = g.byteAt i) :
    ∀ (nums : List Int) (acc : List Nat),
      nums.foldl (fun acc secNum =>
        if secNum ≥ 0 then
          match readAt f ((secNum + 1) * (sectorSize : Int)) sectorSize with
          | .error _ => acc
          | .ok sector => acc ++ sector
        else acc) acc =
      nums.foldl (fun acc secNum =>
        if secNum ≥ 0 then
          match readAt g ((secNum + 1) * (sectorSize : Int)) sectorSize with
          | .error _ => acc
          | .ok sector => acc ++ sector
        else acc) acc := by
  intro nums
  induction nums with
  | nil => intro acc; rfl
  | cons n rest ih =>
    intro acc
    simp only [List.foldl_cons]
    by_cases hn : n ≥ 0
    · rw [if_pos hn, if_pos hn,
        readAt_agree f g hsz hag _ _ (by unfold sectorSize; omega)]
      exact ih _
    · rw [if_neg hn, if_neg hn]
      exact ih _

theorem collectFatBytes_agree' (f g : FileModel) (hsz : f.size = g.size)
    (hag : ∀ i, i ≠ 30 → i ≠ 31 → f.byteAt i = g.byteAt i) (nums : List Int) :
    collectFatBytes f nums = collectFatBytes g nums :=
  collectFatBytes_agree f g hsz hag nums []

theorem dirAdditionalLoop_agree (f g : FileModel) (hsz : f.size = g.size)
    (hag : ∀ i, i ≠ 30 → i ≠ 31 → f.byteAt i = g.byteAt i)
    (dirStartSector : Int) (hd : 0 ≤ dirStartSector) :
    ∀ fuel (k : Nat) (dirStream : List Nat),
      dirAdditionalLoop f dirStartSector fuel k dirStream =
        dirAdditionalLoop g dirStartSector fuel k dirStream := by
  intro fuel
  induction fuel with
  | zero => intro k dirStream; rfl
  | succ fuel ih =>
    intro k dirStream
    unfold dirAdditionalLoop
    rw [readAt_agree f g hsz hag _ _ (by unfold sectorSize; omega)]
    cases hres : readAt g ((dirStartSector + 1 + (k : Int) + 1) * (sectorSize : Int))
        sectorSize with
    | error e => simp only [hres]
    | ok sector =>
      simp only [hres]
      by_cases hc : sector.getD 66 0 ≤ 5 ∧ 0 < leU16 sector 64 ∧ leU16 sector 64 ≤ 64
      · rw [if_pos hc, if_pos hc]
        exact ih _ _
      · rw [if_neg hc, if_neg hc]

theorem readDirStream_agree (f g : FileModel) (hsz : f.size = g.size)
    (hag : ∀ i, i ≠ 30 → i ≠ 31 → f.byteAt i = g.byteAt i) (d : Int) :
    readDirStream f d = readDirStream g d := by
  unfold readDirStream
  by_cases hd : d ≥ 0
  · rw [if_pos hd, if_pos hd,
      readAt_agree f g hsz hag _ _ (by unfold sectorSize; omega)]
    cases hres : readAt g ((d + 1) * (sectorSize : Int)) sectorSize with
    | error e => simp only [hres]
    | ok sector =>
      simp only [hres]
      simp only [dirAdditionalLoop_agree f g hsz hag d (by omega)]
  · rw [if_neg hd, if_neg hd]

theorem fileU32_agree (f g : FileModel)
    (hag : ∀ i, i ≠ 30 → i ≠ 31 → f.byteAt i = g.byteAt i)
    (off : Nat) (hoff : 32 ≤ off) : fileU32 f off = fileU32 g off := by
  unfold fileU32
  rw [hag off (by omega) (by omega), hag (off + 1) (by omega) (by omega),
    hag (off + 2) (by omega) (by omega), hag (off + 3) (by omega) (by omega)]

theorem fileU64_agree_zero (f g : FileModel)
    (hag : ∀ i, i ≠ 30 → i ≠ 31 → f.byteAt i = g.byteAt i) :
    fileU64 f 0 = fileU64 g 0 := by
  unfold fileU64 fileU32
  rw [hag 0 (by omega) (by omega), hag (0 + 1) (by omega) (by omega),
    hag (0 + 2) (by omega) (by omega), hag (0 + 3) (by omega) (by omega),
    hag (0 + 4) (by omega) (by omega), hag (0 + 4 + 1) (by omega) (by omega),
    hag (0 + 4 + 2) (by omega) (by omega), hag (0 + 4 + 3) (by omega) (by omega)]

theorem newReader_agree (f g : FileModel) (hsz : f.size = g.size)
    (hag : ∀ i, i ≠ 30 → i ≠ 31 → f.byteAt i = g.byteAt i) :
    newReader f = newReader g := by
  have h0 := fileU64_agree_zero f g hag
  have h44 := fileU32_agree f g hag 44 (by omega)
  have h48 := fileU32_agree f g hag 48 (by omega)
  have h68 := fileU32_agree f g hag 68 (by omega)
  have h72 := fileU32_agree f g hag 72 (by omega)
  have hdb : (List.range 436).map (fun k => f.byteAt (76 + k)) =
      (List.range 436).map (fun k => g.byteAt (76 + k)) := by
    apply List.map_congr_left
    intro k _
    exact hag _ (by omega) (by omega)
  unfold newReader
  simp only [hsz, h0, h44, h48, h68, h72, hdb,
    difatChainLoop_agree f g hsz hag,
    collectFatBytes_agree' f g hsz hag,
    readDirStream_agree f g hsz hag]

theorem readStreamLoop_agree (f g : FileModel) (hsz : f.size = g.size)
    (hag : ∀ i, i ≠ 30 → i ≠ 31 → f.byteAt i = g.byteAt i)
    (fat : List Nat) (streamSize : Nat) :
    ∀ fuel (secNum : Int) (remaining : Nat) (acc : List Nat),
      readStreamLoop f fat streamSize fuel secNum remaining acc =
        readStreamLoop g fat streamSize fuel secNum remaining acc := by
  intro fuel
  induction fuel with
  | zero => intro _ _ _; rfl
  | succ fuel ih =>
    intro secNum remaining acc
    unfold readStreamLoop
    by_cases hgd : ¬ (secNum ≥ 0 ∧ 0 < remaining)
    · rw [if_pos hgd, if_pos hgd]
    · rw [if_neg hgd, if_neg hgd]
      push_neg at hgd
      rw [readAt_agree f g hsz hag _ _ (by have := hgd.1; unfold sectorSize; omega)]
      cases hres : readAt g ((secNum + 1) * (sectorSize : Int)) sectorSize with
      | error e => simp only [hres]
      | ok sector =>
        simp only [hres]
        by_cases hf : secNum < (fat.length : Int)
        · rw [if_pos hf, if_pos hf]
          by_cases hs : fat.getD secNum.toNat 0 = 0xFFFFFFFE ∨
              fat.getD secNum.toNat 0 = 0xFFFFFFFF
          · rw [if_pos hs, if_pos hs]
          · rw [if_neg hs, if_neg hs]
            exact ih _ _ _
        · rw [if_neg hf, if_neg hf]
          by_cases hr : 0 < remaining - min sectorSize remaining ∧
              streamSize ≤ sectorSize * 10
          · rw [if_pos hr, if_pos hr]
            exact ih _ _ _
          · rw [if_neg hr, if_neg hr]

theorem readStreamEntries_agree (f g : FileModel) (hsz : f.size = g.size)
    (hag : ∀ i, i ≠ 30 → i ≠ 31 → f.byteAt i = g.byteAt i)
    (fat : List Nat) (name : String) :
    ∀ entries, readStreamEntries f fat name entries = readStreamEntries g fat name entries := by
  intro entries
  induction entries with
  | nil => rfl
  | cons entry rest ih =>
    unfold readStreamEntries
    by_cases hm : entry.objectType = 2 ∧
        trimSpace (utf16BytesToString entry.name entry.nameLen) = trimSpace name
    · rw [if_pos hm, if_pos hm]
      exact readStreamLoop_agree f g hsz hag fat entry.streamSize _ _ _ _
    · rw [if_neg hm, if_neg hm]
      exact ih

/-- C4 (amended): the reader never reads the sector-shift field.  The sector
size is the fixed constant 512; any two inputs of equal size that agree on
every byte except offsets 30–31 (the header's sector_shift field) produce the
same reader and the same stream contents, and no sector-shift value —
including invalid ones — is rejected. -/
theorem C4_sector_shift_ignored (f g : FileModel) (hsz : f.size = g.size)
    (hag : ∀ i, i ≠ 30 → i ≠ 31 → f.byteAt i = g.byteAt i) :
    sectorSize = 512 ∧ newReader f = newReader g ∧
    ∀ rd name, ReadStream f rd name = ReadStream g rd name :=
  ⟨rfl, newReader_agree f g hsz hag,
    fun rd name => readStreamEntries_agree f g hsz hag rd.fat name rd.dirEntries⟩

theorem mockFile_agree (a b : Nat) :
    ∀ i, i ≠ 30 → i ≠ 31 → (mockFile a).byteAt i = (mockFile b).byteAt i := by
  intro i h30 h31
  show (if i < 512 then mockHeaderByte a i else _) =
    (if i < 512 then mockHeaderByte b i else _)
  by_cases hi : i < 512
  · rw [if_pos hi, if_pos hi]
    unfold mockHeaderByte
    simp [h30]
  · rw [if_neg hi, if_neg hi]

set_option maxRecDepth 1000000 in
set_option maxHeartbeats 1000000 in
/-- C4 counterexample: the reader accepts a header whose sector_shift is 7
(the claim allows only 9 and 12), and parses the sector_shift-12 file to
exactly the same reader as its sector_shift-9 counterpart while always using
512-byte sectors. -/
theorem C4_sector_shift_ignored_counterexample :
    (newReader (mockFile 7)).isOk = true ∧
    newReader (mockFile 9) = newReader (mockFile 12) ∧
    (mockFile 12).byteAt 30 = 12 ∧ (mockFile 9).byteAt 30 = 9 ∧
    (mockFile 7).byteAt 30 = 7 :=
  ⟨by decide, newReader_agree (mockFile 9) (mockFile 12) rfl (mockFile_agree 9 12),
    by decide, by decide, by decide⟩

theorem C4_sector_shift_ignored_witness :
    ((mockFile 9).size = (mockFile 12).size) ∧
    (sectorSize = 512 ∧ newReader (mockFile 9) = newReader (mockFile 12) ∧
      ∀ rd name, ReadStream (mockFile 9) rd name = ReadStream (mockFile 12) rd name) :=
  ⟨rfl, C4_sector_shift_ignored (mockFile 9) (mockFile 12) rfl (mockFile_agree 9 12)⟩

/-! ## Claim C6: password verification -/

theorem u32x4_length (q : Nat × Nat × Nat × Nat) :
    (match q with
      | (a, b, c, d) => u32Bytes a ++ (u32Bytes b ++ (u32Bytes c ++ u32Bytes d))).length
      = 16 := by
  obtain ⟨a, b, c, d⟩ := q
  simp [u32Bytes]

theorem md5_length (msg : List Nat) : (md5 msg).length = 16 := by
  simp only [md5]
  exact u32x4_length _

/-- C6 (amended): password verification derives the key
`MD5(passwordHash ++ salt[0..16])` with no block number, RC4-decrypts the
16-byte verifier, and hashes the decrypted bytes NOT with plain MD5 but with
`GeneratePasswordHash` applied to the bytes read back as a Go string (UTF-8
decoding re-encoded as UTF-16LE pairs); the prefix-wise comparison with the
stored hash yields `ok false` on mismatch (no crash) and `ok true` on
match. -/
theorem C6_validate_password (h : EncryptionHeader) (pw : List Nat)
    (hp : IsPasswordProtected h = true) (hpw : pw.length ≠ 0)
    (hs : 16 ≤ h.salt.length) :
    ValidatePassword h pw =
      .ok (hashesMatch
        (GeneratePasswordHash
          ((rc4Decrypt (rc4Ksa (md5 (GeneratePasswordHash pw ++ h.salt.take 16)))
            h.encryptedVerifier).1))
        h.verifierHash) := by
  have hkey : GenerateDecryptionKey pw h.salt =
      .ok (md5 (GeneratePasswordHash pw ++ h.salt.take 16)) := by
    unfold GenerateDecryptionKey
    rw [if_neg hpw, if_neg (show ¬ (h.salt.length < 16) by omega)]
  have hrc4 : NewRC4 (md5 (GeneratePasswordHash pw ++ h.salt.take 16)) =
      .ok (rc4Ksa (md5 (GeneratePasswordHash pw ++ h.salt.take 16))) := by
    unfold NewRC4
    rw [if_neg (show ¬ ((md5 (GeneratePasswordHash pw ++ h.salt.take 16)).length = 0) by
      rw [md5_length]; omega)]
  unfold ValidatePassword
  rw [if_neg (show ¬ (IsPasswordProtected h = false) by simp [hp])]
  simp only [hkey, hrc4]

set_option maxRecDepth 400000 in
theorem c6_material_eq :
    GenerateDecryptionKey c6pw c6header.salt = .ok c6material := by decide

set_option maxRecDepth 400000 in
theorem c6_blockKey_eq : specBlockKey c6material 0 = c6blockKey := by decide

set_option maxRecDepth 400000 in
theorem c6_spec_decrypt :
    (rc4Decrypt (rc4Ksa c6blockKey) c6header.encryptedVerifier).1 =
      List.replicate 16 0 := by decide

set_option maxRecDepth 400000 in
theorem c6_spec_md5 :
    (md5 (List.replicate 16 0) == c6header.verifierHash) = true := by decide

theorem c6_code_newRC4 : NewRC4 c6material = .ok (rc4Ksa c6material) := by
  unfold NewRC4
  rw [if_neg (show ¬ (c6material.length = 0) by decide)]

set_option maxRecDepth 400000 in
theorem c6_code_decrypt :
    (rc4Decrypt (rc4Ksa c6material) c6header.encryptedVerifier).1 =
      c6codeDecrypted := by decide

set_option maxRecDepth 400000 in
theorem c6_code_hash :
    hashesMatch (GeneratePasswordHash c6codeDecrypted) c6header.verifierHash =
      false := by decide

/-- C6 counterexample: a header/password pair that the claim's procedure
(decrypt with the block-0 key MD5(material ++ LE32 0), then MD5 the 16
decrypted verifier bytes themselves) accepts, but `ValidatePassword`
rejects with `ok false`: the code keys RC4 with the plain derived material
(no block number appended) and hashes the UTF-16LE re-encoding of the
decrypted bytes instead of the bytes themselves. -/
theorem C6_validate_password_counterexample :
    specVerifierCheck c6header c6pw = true ∧
    ValidatePassword c6header c6pw = .ok false := by
  constructor
  · unfold specVerifierCheck
    rw [c6_material_eq]
    show (md5 ((rc4Decrypt (rc4Ksa (specBlockKey c6material 0))
      c6header.encryptedVerifier).1) == c6header.verifierHash) = true
    rw [c6_blockKey_eq, c6_spec_decrypt]
    exact c6_spec_md5
  · unfold ValidatePassword
    rw [if_neg (show ¬ (IsPasswordProtected c6header = false) by decide)]
    rw [c6_material_eq]
    show (match NewRC4 c6material with
      | .error e => .error e
      | .ok rc4 =>
        .ok (hashesMatch
          (GeneratePasswordHash ((rc4Decrypt rc4 c6header.encryptedVerifier).1))
          c6header.verifierHash)) = Except.ok false
    rw [c6_code_newRC4]
    show Except.ok (hashesMatch
      (GeneratePasswordHash
        ((rc4Decrypt (rc4Ksa c6material) c6header.encryptedVerifier).1))
      c6header.verifierHash) = Except.ok false
    rw [c6_code_decrypt, c6_code_hash]

theorem C6_validate_password_witness :
    (IsPasswordProtected c6header = true ∧ c6pw.length ≠ 0 ∧
      16 ≤ c6header.salt.length) ∧
    ValidatePassword c6header c6pw =
      .ok (hashesMatch
        (GeneratePasswordHash
          ((rc4Decrypt (rc4Ksa (md5 (GeneratePasswordHash c6pw ++ c6header.salt.take 16)))
            c6header.encryptedVerifier).1))
        c6header.verifierHash) :=
  ⟨⟨by decide, by decide, by decide⟩,
    C6_validate_password c6header c6pw (by decide) (by decide) (by decide)⟩

theorem extract_onePiece (dec : RC4) (ws : List Nat) (b n : Nat)
    (hn : 0 < n) (hb : b + n ≤ ws.length) :
    extractTextFromPieces (onePieceTable b n) ws true dec =
      .ok ((rc4Decrypt dec (goSlice ws b (b + n))).1) := by
  unfold extractTextFromPieces
  have hlen : (onePieceTable b n).plc.data.length = 1 := rfl
  rw [hlen]
  have hr : List.range 1 = [0] := rfl
  rw [hr]
  unfold extractPiecesLoop
  have hg : GetTextRange (onePieceTable b n) 0 =
      .ok (0, n, ⟨false, false, b, false⟩) := rfl
  simp only [hg]
  have hd : cpDistance 0 n = n := by
    unfold cpDistance
    rw [if_neg (by omega)]
    omega
  simp only [hd]
  rw [if_neg (show ¬ (n = 0) by omega)]
  simp only [GetActualFC, Bool.false_eq_true, if_false]
  rw [if_neg (show ¬ (ws.length < b + n) by omega)]
  rw [if_pos (show True ∧ True from ⟨trivial, trivial⟩)]
  unfold extractPiecesLoop
  simp

/-- C7 (amended): there is no per-block re-keying.  The decryptor is a single
RC4 cipher whose keystream continues across pieces in piece order: the bytes
a piece decrypts to depend only on the encrypted bytes and the current cipher
state, never on the piece's byte offset (its 512-byte block number or
in-block position). -/
theorem C7_no_block_rekeying (dec : RC4) (ws ws' : List Nat) (b b' n : Nat)
    (hn : 0 < n) (hb : b + n ≤ ws.length) (hb' : b' + n ≤ ws'.length)
    (heq : goSlice ws b (b + n) = goSlice ws' b' (b' + n)) :
    extractTextFromPieces (onePieceTable b n) ws true dec =
      extractTextFromPieces (onePieceTable b' n) ws' true dec := by
  rw [extract_onePiece dec ws b n hn hb, extract_onePiece dec ws' b' n hn hb', heq]

theorem C7_no_block_rekeying_witness :
    ((0 : Nat) < 4 ∧ 2 + 4 ≤ (List.replicate 8 (7 : Nat)).length ∧
      3 + 4 ≤ (List.replicate 9 (7 : Nat)).length ∧
      goSlice (List.replicate 8 (7 : Nat)) 2 (2 + 4) =
        goSlice (List.replicate 9 (7 : Nat)) 3 (3 + 4)) ∧
    extractTextFromPieces (onePieceTable 2 4) (List.replicate 8 7) true ⟨List.range 256, 0, 0⟩ =
      extractTextFromPieces (onePieceTable 3 4) (List.replicate 9 7) true ⟨List.range 256, 0, 0⟩ :=
  ⟨⟨by decide, by decide, by decide, by decide⟩,
    C7_no_block_rekeying ⟨List.range 256, 0, 0⟩ (List.replicate 8 7) (List.replicate 9 7)
      2 3 4 (by decide) (by decide) (by decide) (by decide)⟩

set_option maxRecDepth 1000000 in
set_option maxHeartbeats 4000000 in
/-- C7 counterexample: a one-byte piece at file offset 512 (block 1).  The
code decrypts it with the continuing keystream of the single cipher keyed
with the derived material; the claim's scheme uses the block-1 key
`MD5(material ++ 01 00 00 00)` with a fresh keystream.  The outputs differ. -/
theorem C7_no_block_rekeying_counterexample :
    extractTextFromPieces (onePieceTable 512 1) (List.replicate 513 0) true
        (rc4Ksa c7material) ≠
      .ok (specRekeyedDecrypt c7material 512 (goSlice (List.replicate 513 0) 512 513)) := by
  decide
